import Mathlib

/-!
Verification of the statlines_backend table-scraper pipeline.

The Python sources under `src/scrapers/tables/`, `src/scrapers/scrape_team_stats.py`
and `src/common/mappings/teams.py` are embedded shallowly:

* Python `str` values are Lean `String`s (ASCII fragment: `str.isdigit`,
  `str.lower`, `float()` and `int()` are modelled on their ASCII decimal
  behaviour; unicode digit classes, `inf`/`nan` literals and underscore
  separators of CPython are outside the fragment the scraped data uses).
* `float` results are modelled as exact decimals `PyNum` (an integer
  numerator over a power-of-ten denominator; `PyNum.toRat` gives the value).
  The parsed decimals are tiny, so no rounding behaviour is observable in
  the claims.
* Raising Python functions return `Except String _`; `None` is `Option.none`.
* The SQLAlchemy session is a pair (committed database, current working
  database): `add`/attribute mutation edit the current database, `commit`
  copies current over committed, `rollback` copies committed over current;
  queries read the current database (autoflush).
-/

namespace Statlines

/-- Characters stripped by CPython around numeric literals. -/
def isPyWs (c : Char) : Bool :=
  c = ' ' || c = '\t' || c = '\n' || c = '\r' || c = '\x0b' || c = '\x0c'

/-- ASCII decimal digit test. -/
def isDigitC (c : Char) : Bool :=
  '0' ≤ c && c ≤ '9'

/-- Value of a string of ASCII digits, most significant first. -/
def digitsToNat (l : List Char) : Nat :=
  l.foldl (fun a c => a * 10 + (c.toNat - 48)) 0

/-- Strip leading and trailing whitespace from a character list. -/
def stripWs (l : List Char) : List Char :=
  ((l.dropWhile isPyWs).reverse.dropWhile isPyWs).reverse

/-- Consume an optional leading sign, returning the sign as `1` or `-1`. -/
def splitSign : List Char → (Int × List Char)
  | '+' :: r => (1, r)
  | '-' :: r => (-1, r)
  | l => (1, l)

/-- Parse an exponent suffix body (after the letter `e`): optional sign then a
nonempty digit run.  Returns (well-formed?, exponent value, leftover). -/
def parseExp (r : List Char) : Bool × Int × List Char :=
  let p := splitSign r
  let ds := p.2.takeWhile isDigitC
  let rest := p.2.dropWhile isDigitC
  (!ds.isEmpty, p.1 * (digitsToNat ds : Int), rest)

/-- An exact decimal value: `num / den` with `den` a power of ten.  Kept
unnormalized so that every operation evaluates by kernel reduction. -/
structure PyNum where
  num : Int
  den : Nat
deriving DecidableEq, Repr

/-- The rational value of a `PyNum` (used in theorem statements only). -/
def PyNum.toRat (p : PyNum) : ℚ :=
  (p.num : ℚ) / (p.den : ℚ)

/-- Assemble a decimal from sign, mantissa and base-ten exponent. -/
def PyNum.ofParts (sgn : Int) (mantissa : Nat) (e : Int) : PyNum :=
  if 0 ≤ e then ⟨sgn * (mantissa : Int) * ((10 ^ e.toNat : Nat) : Int), 1⟩
  else ⟨sgn * (mantissa : Int), 10 ^ (-e).toNat⟩

/-- Parse the body of a CPython `float()` literal (sign, integer part,
optional fraction, optional exponent); `none` when ill-formed. -/
def parseDecimal (l : List Char) : Option PyNum :=
  let sp := splitSign l
  let ip := sp.2.takeWhile isDigitC
  let r1 := sp.2.dropWhile isDigitC
  let fr : List Char × List Char :=
    match r1 with
    | '.' :: r => (r.takeWhile isDigitC, r.dropWhile isDigitC)
    | _ => ([], r1)
  let hasDot : Bool := match r1 with
    | '.' :: _ => true
    | _ => false
  let ex : Bool × Int × List Char :=
    match fr.2 with
    | 'e' :: r => parseExp r
    | 'E' :: r => parseExp r
    | _ => (true, 0, fr.2)
  if (!ip.isEmpty || (hasDot && !fr.1.isEmpty)) && ex.1 && ex.2.2.isEmpty then
    some (PyNum.ofParts sp.1 (digitsToNat (ip ++ fr.1))
      (ex.2.1 - (fr.1.length : Int)))
  else
    none

/-- CPython `float(s)` on the ASCII decimal fragment. -/
def pyFloat (s : String) : Option PyNum :=
  parseDecimal (stripWs s.data)

/-- CPython `int(s)` on the ASCII decimal fragment: strip whitespace, optional
sign, nonempty digit run. -/
def parseIntChars (l : List Char) : Option Int :=
  let l1 := stripWs l
  let sp := splitSign l1
  if !sp.2.isEmpty && sp.2.all isDigitC then
    some (sp.1 * (digitsToNat sp.2 : Int))
  else
    none

/-- Model of `int(s)` as an exception-raising operation. -/
def pyInt (s : String) : Except String Int :=
  match parseIntChars s.data with
  | some n => .ok n
  | none => .error "ValueError"

/-- Python `str.isdigit` on the ASCII fragment: nonempty and all digits. -/
def pyIsDigit (s : String) : Bool :=
  !s.data.isEmpty && s.data.all isDigitC

/-- The idiom `int(s) if s.isdigit() else None` used by the overall-results
row mapper; never raises. -/
def intIfDigit (s : String) : Option Int :=
  if pyIsDigit s then some (digitsToNat s.data : Int) else none

/-- Python `s.replace(c, '')` for a single-character pattern: remove every
occurrence of `c`. -/
def pyRemoveChar (s : String) (c : Char) : String :=
  String.mk (s.data.filter (fun d => d ≠ c))

/-- Python `s.lower()` on the ASCII fragment. -/
def pyLower (s : String) : String :=
  String.mk (s.data.map Char.toLower)

/-- Model of `BaseTableScraper._parse_numeric_value` (src/scrapers/tables/base.py):
empty string short-circuits to `None`; otherwise every `'+'` and `','` is
removed and the result is fed to `float()`, with `ValueError` mapped to
`None`.  Total by construction, so the Python version never raises. -/
def parse_numeric_value (value : String) : Option PyNum :=
  if value = "" then none
  else pyFloat (pyRemoveChar (pyRemoveChar value '+') ',')

/-- Model of `PREMIER_LEAGUE_TEAM_NAMES` (src/common/mappings/teams.py), in source
order. -/
def PREMIER_LEAGUE_TEAM_NAMES : List (String × String) :=
  [("Arsenal", "Arsenal"),
   ("Aston Villa", "Aston Villa"),
   ("Bournemouth", "Bournemouth"),
   ("Brentford", "Brentford"),
   ("Brighton & Hove Albion", "Brighton & Hove Albion"),
   ("Brighton", "Brighton & Hove Albion"),
   ("Chelsea", "Chelsea"),
   ("Crystal Palace", "Crystal Palace"),
   ("Everton", "Everton"),
   ("Fulham", "Fulham"),
   ("Liverpool", "Liverpool"),
   ("Manchester City", "Manchester City"),
   ("Tottenham Hotspur", "Tottenham Hotspur"),
   ("Tottenham", "Tottenham Hotspur"),
   ("West Ham United", "West Ham United"),
   ("West Ham", "West Ham United"),
   ("Leicester City", "Leicester City"),
   ("Nott\x27ham Forest", "Nottingham Forest"),
   ("Nottingham Forest", "Nottingham Forest"),
   ("Newcastle Utd", "Newcastle United"),
   ("Newcastle United", "Newcastle United"),
   ("Southampton", "Southampton"),
   ("Ipswich Town", "Ipswich Town"),
   ("Wolves", "Wolverhampton Wanderers"),
   ("Wolverhampton Wanderers", "Wolverhampton Wanderers"),
   ("Manchester Utd", "Manchester United"),
   ("Manchester United", "Manchester United")]

/-- Python `dict.get(k, dflt)` over an association list whose keys are
distinct (as in the literal above). -/
def pyDictGet (d : List (String × String)) (k dflt : String) : String :=
  match d.find? (fun p => p.1 = k) with
  | some p => p.2
  | none => dflt

/-- Model of `get_standardized_team_name` (src/common/mappings/teams.py).  A falsy
(empty or `None`) name returns Python `None`; the Premier League lookup falls
back to the input name; other competitions pass the name through. -/
def get_standardized_team_name (team_name : Option String)
    (competition : String) : Option String :=
  match team_name with
  | none => none
  | some t =>
    if t = "" then none
    else if competition = "Premier League" then
      some (pyDictGet PREMIER_LEAGUE_TEAM_NAMES t t)
    else
      some t

instance {ε α : Type} [DecidableEq ε] [DecidableEq α] :
    DecidableEq (Except ε α)
  | .error a, .error b =>
    if h : a = b then .isTrue (by rw [h]) else .isFalse (by simp [h])
  | .error _, .ok _ => .isFalse (by simp)
  | .ok _, .error _ => .isFalse (by simp)
  | .ok a, .ok b =>
    if h : a = b then .isTrue (by rw [h]) else .isFalse (by simp [h])

/-! ### Substring search (Python `in` on strings, `str.replace`) -/

/-- Does the second list start with the first? -/
def startsWithL (needle : List Char) (hay : List Char) : Bool :=
  match needle, hay with
  | [], _ => true
  | _ :: _, [] => false
  | c :: cs, d :: ds => c = d && startsWithL cs ds

/-- Substring occurrence test over character lists. -/
def containsL (needle : List Char) : List Char → Bool
  | [] => needle.isEmpty
  | c :: rest => startsWithL needle (c :: rest) || containsL needle rest

/-- Python `sub in s`. -/
def pyInStr (s sub : String) : Bool :=
  containsL sub.data s.data

/-- Helper for `str.replace(pat, '')`: `k` characters of a just-matched
pattern remain to be skipped. -/
def removeSubAux (pat : List Char) : Nat → List Char → List Char
  | _, [] => []
  | Nat.succ k, _ :: rest => removeSubAux pat k rest
  | 0, c :: rest =>
    if !pat.isEmpty && startsWithL pat (c :: rest) then
      removeSubAux pat (pat.length - 1) rest
    else
      c :: removeSubAux pat 0 rest

/-- Python `s.replace(pat, '')`: delete every (left-to-right,
non-overlapping) occurrence of `pat`. -/
def pyRemoveSub (s pat : String) : String :=
  String.mk (removeSubAux pat.data 0 s.data)

/-! ### The relational store and the SQLAlchemy session

Rows of the `competitions` and `teams` tables and of one statistics table
family (the type parameter `F` is that family's non-key payload).  Each
scraper's `save_to_db` touches exactly one statistics table, so the model
carries one. -/

structure Competition where
  id : Nat
  name : String
deriving DecidableEq, Repr

structure Team where
  id : Nat
  name : Option String
  competition_id : Nat
deriving DecidableEq, Repr

/-- A statistics row: the (team, season, competition) key plus the
family-specific payload. -/
structure SRecord (F : Type) where
  team_id : Nat
  competition_id : Nat
  season : String
  fields : F
deriving DecidableEq, Repr

structure Db (F : Type) where
  competitions : List Competition
  teams : List Team
  stats : List (SRecord F)
  nextCompId : Nat
  nextTeamId : Nat
deriving DecidableEq, Repr

/-- A SQLAlchemy session: the committed store and the current working state
(committed plus pending inserts and attribute mutations; queries autoflush,
so they read the current state). -/
structure Session (F : Type) where
  committed : Db F
  current : Db F
deriving DecidableEq, Repr

/-- Model of `db.commit()`. -/
def commitS {F : Type} (s : Session F) : Session F :=
  ⟨s.current, s.current⟩

/-- Model of `db.rollback()`. -/
def rollbackS {F : Type} (s : Session F) : Session F :=
  ⟨s.committed, s.committed⟩

/-- Model of `Result.scalar_one_or_none()`: `None` on no match, the row on a unique
match, `MultipleResultsFound` otherwise. -/
def scalarOneOrNone {α : Type} (p : α → Bool) (l : List α) :
    Except String (Option α) :=
  match l.filter p with
  | [] => .ok none
  | [a] => .ok (some a)
  | _ :: _ :: _ => .error "MultipleResultsFound"

/-- Python `row[i]` on a list (raises `IndexError` past the end; the scraped
indices are all nonnegative). -/
def pyGet (row : List String) (i : Nat) : Except String String :=
  match row.get? i with
  | some v => .ok v
  | none => .error "IndexError"

/-- Model of `BaseTableScraper._get_or_create_competition`: look the competition up
by name; create it and commit when absent. -/
def get_or_create_competition {F : Type} (competition_name : String)
    (s : Session F) : Except String (Competition × Session F) := do
  let found ← scalarOneOrNone (fun c => c.name == competition_name)
    s.current.competitions
  match found with
  | some c => .ok (c, s)
  | none =>
    let c : Competition := ⟨s.current.nextCompId, competition_name⟩
    let cur := { s.current with
      competitions := s.current.competitions ++ [c],
      nextCompId := s.current.nextCompId + 1 }
    .ok (c, ⟨cur, cur⟩)

/-- Model of `BaseTableScraper._get_or_create_team` (src/scrapers/tables/base.py):
standardize the scraped name, look the team up by the standardized name,
create it (with the standardized name) and commit when absent. -/
def get_or_create_team {F : Type} (team_name : String)
    (competition_id : Nat) (s : Session F) :
    Except String (Team × Session F) := do
  let standardized_name :=
    get_standardized_team_name (some team_name) "Premier League"
  let found ← scalarOneOrNone (fun t => t.name == standardized_name)
    s.current.teams
  match found with
  | some t => .ok (t, s)
  | none =>
    let t : Team := ⟨s.current.nextTeamId, standardized_name, competition_id⟩
    let cur := { s.current with
      teams := s.current.teams ++ [t],
      nextTeamId := s.current.nextTeamId + 1 }
    .ok (t, ⟨cur, cur⟩)

/-- Model of `FBrefScraper._get_or_create_team` (src/scrapers/scrape_team_stats.py):
identical except that the raw scraped name is used unstandardized for both
the lookup and the creation. -/
def fbref_get_or_create_team {F : Type} (team_name : String)
    (competition_id : Nat) (s : Session F) :
    Except String (Team × Session F) := do
  let found ← scalarOneOrNone (fun t => t.name == some team_name)
    s.current.teams
  match found with
  | some t => .ok (t, s)
  | none =>
    let t : Team := ⟨s.current.nextTeamId, some team_name, competition_id⟩
    let cur := { s.current with
      teams := s.current.teams ++ [t],
      nextTeamId := s.current.nextTeamId + 1 }
    .ok (t, ⟨cur, cur⟩)

/-- The `where` clause shared by every family's existence check:
`team_id == ... AND season == ... AND competition_id == ...`. -/
def recordKeyMatch {F : Type} (team_id competition_id : Nat)
    (season : String) (r : SRecord F) : Bool :=
  r.team_id == team_id && r.season == season &&
    r.competition_id == competition_id

/-- Number of statistics rows carrying a given key. -/
def countKey {F : Type} (team_id competition_id : Nat) (season : String)
    (l : List (SRecord F)) : Nat :=
  (l.filter (recordKeyMatch team_id competition_id season)).length

/-! ### Table locators -/

/-- The extracted page: table id → rows (each row a list of cell texts), in
page order (Python dict preserves insertion order). -/
abbrev TablesData : Type :=
  List (String × List (List String))

/-- Model of `OverallResultsTableScraper._find_overall_table`: first table whose
(lowercased) id contains both `"overall"` and `"results"`; `None` (with a
warning) otherwise. -/
def find_overall_table (tables_data : TablesData) :
    Option (List (List String)) :=
  (tables_data.find? (fun p =>
    pyInStr (pyLower p.1) "overall" && pyInStr (pyLower p.1) "results")).map
    (fun p => p.2)

/-- Model of `SquadKeeperAgainstScraper._find_squad_keeper_table`. -/
def find_squad_keeper_table (tables_data : TablesData) :
    Option (List (List String)) :=
  (tables_data.find? (fun p =>
    pyInStr (pyLower p.1) "stats_squads_keeper_against")).map (fun p => p.2)

/-! ### Row mappers -/

/-- The non-key columns of `team_overall_table_results`. -/
structure OverallFields where
  rk : Option Int
  squad : String
  mp : Option Int
  w : Option Int
  d : Option Int
  l : Option Int
  gf : Option Int
  ga : Option Int
  gd : Option Int
  pts : Option Int
  pts_per_mp : Option PyNum
  xg : Option PyNum
  xga : Option PyNum
  xgd : Option PyNum
  xgd_per_90 : Option PyNum
deriving DecidableEq, Repr

/-- Model of `OverallResultsTableScraper._map_row_to_stats`: digit-guarded `int()`
for rk/mp/w/d/l/gf/ga/pts, unguarded `int()` after `'+'`-stripping for gd
(raising on non-integer nonempty text), `_parse_numeric_value` for the
float columns.  Cell accesses and the gd conversion raise in source order. -/
def overall_map_row_to_stats (row : List String) :
    Except String OverallFields := do
  let c0 ← pyGet row 0
  let c1 ← pyGet row 1
  let c2 ← pyGet row 2
  let c3 ← pyGet row 3
  let c4 ← pyGet row 4
  let c5 ← pyGet row 5
  let c6 ← pyGet row 6
  let c7 ← pyGet row 7
  let c8 ← pyGet row 8
  let gd ← if c8 == "" then pure (none : Option Int)
    else (pyInt (pyRemoveChar c8 '+')).map some
  let c9 ← pyGet row 9
  let c10 ← pyGet row 10
  let c11 ← pyGet row 11
  let c12 ← pyGet row 12
  let c13 ← pyGet row 13
  let c14 ← pyGet row 14
  .ok { rk := intIfDigit c0, squad := c1, mp := intIfDigit c2,
        w := intIfDigit c3, d := intIfDigit c4, l := intIfDigit c5,
        gf := intIfDigit c6, ga := intIfDigit c7, gd := gd,
        pts := intIfDigit c9, pts_per_mp := parse_numeric_value c10,
        xg := parse_numeric_value c11, xga := parse_numeric_value c12,
        xgd := parse_numeric_value c13,
        xgd_per_90 := parse_numeric_value c14 }

/-- The non-key columns of `team_squad_keeper_against`. -/
structure KeeperFields where
  player_number : Option PyNum
  age : Option PyNum
  matches_played : Int
  matches_started : Int
  minutes_played : Int
  minutes_played_90s : Option PyNum
  goals_against : Int
  goals_against_90s : Option PyNum
  shot_on_target_against : Int
  saves : Int
  save_percentage : Option PyNum
  wins : Int
  draws : Int
  losses : Int
  clean_sheets : Int
  clean_sheets_percentage : Option PyNum
  penalties_attempted : Int
  penalties_allowed : Int
  penalties_saved : Int
  penalties_missed : Int
  penalties_saved_percentage : Option PyNum
deriving DecidableEq, Repr

/-- The dict comprehension over the stat-name header row followed by
`header_map.get(key, dflt)`: the dict keeps the LAST index of a repeated
lowercased header, and the declared fallback is used when absent. -/
def header_map_get (header_stats : List String) (key : String)
    (dflt : Nat) : Nat :=
  match header_stats.enum.foldl
      (fun acc p => if pyLower p.2 == key then some p.1 else acc) none with
  | some i => i
  | none => dflt

/-- Model of `SquadKeeperAgainstScraper._map_row_to_stats`: header-alias resolution
with declared fallback indices; `int()` columns are unguarded and raise on
non-integer text, float columns go through `_parse_numeric_value`. -/
def keeper_map_row_to_stats (header_stats row : List String) :
    Except String KeeperFields := do
  let v0 ← pyGet row (header_map_get header_stats "# pl" 1)
  let v1 ← pyGet row (header_map_get header_stats "age" 1)
  let v2 ← pyGet row (header_map_get header_stats "mp" 2)
  let mp ← pyInt v2
  let v3 ← pyGet row (header_map_get header_stats "starts" 3)
  let starts ← pyInt v3
  let v4 ← pyGet row (header_map_get header_stats "min" 4)
  let minutes ← pyInt (pyRemoveChar v4 ',')
  let v5 ← pyGet row (header_map_get header_stats "90s" 5)
  let v6 ← pyGet row (header_map_get header_stats "ga" 6)
  let ga ← pyInt v6
  let v7 ← pyGet row (header_map_get header_stats "ga90" 7)
  let v8 ← pyGet row (header_map_get header_stats "sota" 8)
  let sota ← pyInt v8
  let v9 ← pyGet row (header_map_get header_stats "saves" 9)
  let sv ← pyInt v9
  let v10 ← pyGet row 10
  let v11 ← pyGet row (header_map_get header_stats "w" 11)
  let w ← pyInt v11
  let v12 ← pyGet row (header_map_get header_stats "d" 12)
  let d ← pyInt v12
  let v13 ← pyGet row (header_map_get header_stats "l" 13)
  let l ← pyInt v13
  let v14 ← pyGet row (header_map_get header_stats "cs" 14)
  let cs ← pyInt v14
  let v15 ← pyGet row (header_map_get header_stats "cs%" 15)
  let v16 ← pyGet row (header_map_get header_stats "pkatt" 16)
  let pkatt ← pyInt v16
  let v17 ← pyGet row (header_map_get header_stats "pka" 17)
  let pka ← pyInt v17
  let v18 ← pyGet row (header_map_get header_stats "pksv" 18)
  let pksv ← pyInt v18
  let v19 ← pyGet row (header_map_get header_stats "pkm" 19)
  let pkm ← pyInt v19
  let v20 ← pyGet row 20
  .ok { player_number := parse_numeric_value v0,
        age := parse_numeric_value v1,
        matches_played := mp, matches_started := starts,
        minutes_played := minutes,
        minutes_played_90s := parse_numeric_value v5,
        goals_against := ga,
        goals_against_90s := parse_numeric_value v7,
        shot_on_target_against := sota, saves := sv,
        save_percentage := parse_numeric_value v10,
        wins := w, draws := d, losses := l, clean_sheets := cs,
        clean_sheets_percentage := parse_numeric_value v15,
        penalties_attempted := pkatt, penalties_allowed := pka,
        penalties_saved := pksv, penalties_missed := pkm,
        penalties_saved_percentage := parse_numeric_value v20 }

/-! ### The save-to-db upsert loop

The per-row body is identical across the table families up to the row
filter, the team-name cell and the row-to-record mapper, collected in a
`FamilyOps`; each family's `save_to_db` instantiates it below, so each
instantiation can be diffed against its own Python file. -/

structure FamilyOps (F : Type) where
  skipRow : List String → Bool
  warnOnSkip : Bool
  teamNameOfRow : List String → Except String String
  mapRow : List String → Except String F

/-- One iteration of the `for row in data_rows` loop: skip filtered rows
(warning when the family logs one); otherwise resolve the team (committing
when created), look up the row's (team, season, competition) record, map the
row, and update the found record in place or stage an insert.  Errors carry
the session as it stood when they were raised (the Python exception
propagates to the `except` block which rolls that session back).  The field
values are computed before being written; the Python code mutates the
record attribute by attribute, but a partially mutated record is observable
only through the rollback that discards it. -/
def processRow {F : Type} (season : String) (competition_id : Nat)
    (ops : FamilyOps F) (s : Session F) (row : List String) :
    Except (String × Session F) (Session F × Nat) :=
  if ops.skipRow row then
    .ok (s, if ops.warnOnSkip then 1 else 0)
  else
    match ops.teamNameOfRow row with
    | .error e => .error (e, s)
    | .ok name =>
      match get_or_create_team name competition_id s with
      | .error e => .error (e, s)
      | .ok (team, s1) =>
        match scalarOneOrNone (recordKeyMatch team.id competition_id season)
            s1.current.stats with
        | .error e => .error (e, s1)
        | .ok existing =>
          match ops.mapRow row with
          | .error e => .error (e, s1)
          | .ok fields =>
            let cur := s1.current
            let upd : SRecord F → SRecord F := fun r =>
              if recordKeyMatch team.id competition_id season r then
                { r with fields := fields }
              else r
            let cur2 :=
              match existing with
              | some _ => { cur with stats := cur.stats.map upd }
              | none => { cur with stats :=
                  cur.stats ++ [⟨team.id, competition_id, season, fields⟩] }
            .ok ({ s1 with current := cur2 }, 0)

/-- The whole `for row in data_rows` loop, accumulating warning count. -/
def processRows {F : Type} (season : String) (competition_id : Nat)
    (ops : FamilyOps F) :
    Session F → List (List String) →
      Except (String × Session F) (Session F × Nat)
  | s, [] => .ok (s, 0)
  | s, row :: rest =>
    match processRow season competition_id ops s row with
    | .error e => .error e
    | .ok (s1, w) =>
      match processRows season competition_id ops s1 rest with
      | .error e => .error e
      | .ok (s2, w2) => .ok (s2, w + w2)

/-- Model of `OverallResultsTableScraper`'s per-row parameters: rows with fewer than
10 cells are skipped silently, the team name is cell 1. -/
def overallOps : FamilyOps OverallFields :=
  { skipRow := fun row => row.length < 10,
    warnOnSkip := false,
    teamNameOfRow := fun row => pyGet row 1,
    mapRow := overall_map_row_to_stats }

/-- Model of `SquadKeeperAgainstScraper`'s per-row parameters: rows with fewer cells
than the header row are skipped with a warning, the team name is cell 0
with its `"vs "` marker removed. -/
def keeperOps (header_stats : List String) : FamilyOps KeeperFields :=
  { skipRow := fun row => row.length < header_stats.length,
    warnOnSkip := true,
    teamNameOfRow := fun row =>
      (pyGet row 0).map (fun s => pyRemoveSub s "vs "),
    mapRow := keeper_map_row_to_stats header_stats }

/-- Model of `OverallResultsTableScraper.save_to_db`: get-or-create the competition,
locate the table (warning and plain return when absent or empty), run the
row loop over the rows after the header, commit; on any error roll back and
re-raise.  Returns (outcome, final session, warnings logged on the success
path). -/
def overall_save_to_db (season competition_name : String)
    (tables_data : TablesData) (s : Session OverallFields) :
    Except String Unit × Session OverallFields × Nat :=
  let body : Except (String × Session OverallFields)
      (Session OverallFields × Nat) :=
    match get_or_create_competition competition_name s with
    | .error e => .error (e, s)
    | .ok (competition, s1) =>
      match find_overall_table tables_data with
      | none => .ok (s1, 1)
      | some overall_table =>
        if overall_table.isEmpty then .ok (s1, 0)
        else
          match processRows season competition.id overallOps s1
              (overall_table.drop 1) with
          | .error e => .error e
          | .ok (s2, w) => .ok (commitS s2, w)
  match body with
  | .ok (s2, w) => (.ok (), s2, w)
  | .error (e, serr) => (.error e, rollbackS serr, 0)

/-- Model of `SquadKeeperAgainstScraper.save_to_db`: as above but the table needs at
least two rows (info header and stat-name header), the stat-name header is
row 1, and the data rows start at row 2. -/
def keeper_save_to_db (season competition_name : String)
    (tables_data : TablesData) (s : Session KeeperFields) :
    Except String Unit × Session KeeperFields × Nat :=
  let body : Except (String × Session KeeperFields)
      (Session KeeperFields × Nat) :=
    match get_or_create_competition competition_name s with
    | .error e => .error (e, s)
    | .ok (competition, s1) =>
      match find_squad_keeper_table tables_data with
      | none => .ok (s1, 1)
      | some table =>
        if table.length < 2 then .ok (s1, 0)
        else
          let header_stats := table.getD 1 []
          match processRows season competition.id (keeperOps header_stats)
              s1 (table.drop 2) with
          | .error e => .error e
          | .ok (s2, w) => .ok (commitS s2, w)
  match body with
  | .ok (s2, w) => (.ok (), s2, w)
  | .error (e, serr) => (.error e, rollbackS serr, 0)

/-! ### HTML cell tokenization (src/scrapers/scrape_team_stats.py and
src/scrapers/scrape_matches.py) -/

/-- What the tokenizers can see of a `<td>`/`<th>`: its stripped text, the
stripped text of its first `<a>` child when one exists, and its `data-stat`
attribute when present. -/
structure HtmlCell where
  rawText : String
  linkText : Option String
  dataStat : Option String
deriving DecidableEq, Repr

/-- Model of `FBrefScraper._extract_tables` row construction:
`[cell.get_text(strip=True) for cell in cells]` — always the raw text. -/
def extract_tables_row (cells : List HtmlCell) : List String :=
  cells.map (fun c => c.rawText)

/-- The token `process_table_row` (src/scrapers/scrape_matches.py) stores
for one cell: the raw text, except that a cell with a link whose
`data-stat` is `home_team` or `away_team` uses the link's text. -/
def process_cell_token (td : HtmlCell) : String :=
  if td.linkText.isSome &&
      (td.dataStat == some "home_team" || td.dataStat == some "away_team") then
    td.linkText.getD td.rawText
  else
    td.rawText

/-! ### Well-formedness of a store -/

/-- The store invariants the scrapers rely on: unique competition names,
unique team names and ids, at most one statistics row per key, and id
counters past every existing id. -/
def Db.wf {F : Type} (d : Db F) : Prop :=
  d.competitions.Pairwise (fun a b => a.name ≠ b.name) ∧
  d.teams.Pairwise (fun a b => a.name ≠ b.name ∧ a.id ≠ b.id) ∧
  d.stats.Pairwise (fun a b =>
    a.team_id ≠ b.team_id ∨ a.season ≠ b.season ∨
      a.competition_id ≠ b.competition_id) ∧
  (∀ t ∈ d.teams, t.id < d.nextTeamId) ∧
  (∀ c ∈ d.competitions, c.id < d.nextCompId)

/-! ## Helper lemmas -/

theorem stripWs_eq_nil {l : List Char} (h : ∀ c ∈ l, isPyWs c = true) :
    stripWs l = [] := by
  have h1 : l.dropWhile isPyWs = [] := by
    induction l with
    | nil => rfl
    | cons c rest ih =>
      simp only [List.dropWhile_cons]
      rw [h c (by simp)]
      simp only [if_true]
      exact ih (fun d hd => h d (by simp [hd]))
  simp [stripWs, h1]

theorem parseDecimal_nil : parseDecimal [] = none := rfl

/-! ## C2: numeric coercion -/

/-- C2.  `_parse_numeric_value` strips `'+'` signs and commas and parses the
result as a decimal; empty, whitespace-only or unparseable input maps to
`None` (never an exception — the function is total — and never `0`), and the
five specified inputs `""`, `"  "`, `"1,234"`, `"+3"`, `"N/A"` map to
`None`, `None`, `1234`, `3`, `None`. -/
theorem parse_numeric_value_spec :
    parse_numeric_value "" = none ∧
    parse_numeric_value "  " = none ∧
    parse_numeric_value "1,234" = some ⟨1234, 1⟩ ∧
    PyNum.toRat ⟨1234, 1⟩ = 1234 ∧
    parse_numeric_value "+3" = some ⟨3, 1⟩ ∧
    PyNum.toRat ⟨3, 1⟩ = 3 ∧
    parse_numeric_value "N/A" = none ∧
    (∀ s : String, (∀ c ∈ s.data, isPyWs c = true) →
      parse_numeric_value s = none) ∧
    (∀ s : String,
      pyFloat (pyRemoveChar (pyRemoveChar s '+') ',') = none →
      parse_numeric_value s = none) := by
  refine ⟨by decide, by decide, by decide, by norm_num [PyNum.toRat],
    by decide, by norm_num [PyNum.toRat], by decide, ?_, ?_⟩
  · intro s hws
    by_cases hs : s = ""
    · simp [parse_numeric_value, hs]
    · have hfl : pyFloat (pyRemoveChar (pyRemoveChar s '+') ',') = none := by
        have hall : ∀ c ∈ (pyRemoveChar (pyRemoveChar s '+') ',').data,
            isPyWs c = true := by
          intro c hc
          simp only [pyRemoveChar, String.data] at hc
          exact hws c (List.mem_of_mem_filter (List.mem_of_mem_filter hc))
        simp [pyFloat, stripWs_eq_nil hall, parseDecimal_nil]
      simp [parse_numeric_value, hs, hfl]
  · intro s hfl
    by_cases hs : s = ""
    · simp [parse_numeric_value, hs]
    · simp [parse_numeric_value, hs, hfl]

/-- C2 witness: the whitespace clause at the concrete input `"\t "`. -/
theorem parse_numeric_value_spec_witness :
    parse_numeric_value "\t " = none :=
  parse_numeric_value_spec.2.2.2.2.2.2.2.1 "\t " (by decide)

/-! ## C10: idempotence of team-name standardization -/

theorem plTeamNames_canonical :
    ∀ p ∈ PREMIER_LEAGUE_TEAM_NAMES,
      p.2 ≠ "" ∧ pyDictGet PREMIER_LEAGUE_TEAM_NAMES p.2 p.2 = p.2 := by
  decide

/-- C10.  `get_standardized_team_name` is idempotent: every canonical name
the alias table produces maps to itself, unmapped names pass through, and a
falsy name stays `None`. -/
theorem get_standardized_team_name_idempotent :
    ∀ (team_name : Option String) (competition : String),
      get_standardized_team_name
        (get_standardized_team_name team_name competition) competition =
      get_standardized_team_name team_name competition := by
  intro team_name competition
  match team_name with
  | none => rfl
  | some t =>
    by_cases ht : t = ""
    · simp [get_standardized_team_name, ht]
    · by_cases hc : competition = "Premier League"
      · simp only [get_standardized_team_name, ht, if_false, hc, if_true]
        set v := pyDictGet PREMIER_LEAGUE_TEAM_NAMES t t with hv
        rcases hfind : PREMIER_LEAGUE_TEAM_NAMES.find?
            (fun p => p.1 = t) with _ | p
        · have hvt : v = t := by
            simp [hv, pyDictGet, hfind]
          simp [get_standardized_team_name, hvt, ht, hc, hvt.symm ▸ hfind,
            pyDictGet, hfind]
        · have hp : p ∈ PREMIER_LEAGUE_TEAM_NAMES :=
            List.mem_of_find?_eq_some hfind
          have hvp : v = p.2 := by
            simp [hv, pyDictGet, hfind]
          obtain ⟨hne, hcan⟩ := plTeamNames_canonical p hp
          simp [get_standardized_team_name, hvp, hne, hc, hcan]
      · simp [get_standardized_team_name, ht, hc]

/-! ## C9: hyperlink text preference in cell tokenization -/

/-- C9 counterexample.  A match-schedule cell that carries a hyperlink but
whose `data-stat` is `venue` is tokenized to its raw text, not its link
text; and the team-stats table extractor always takes the raw text. -/
theorem cell_token_counterexample :
    (HtmlCell.mk "Venue A fn" (some "Venue A") (some "venue")).linkText =
      some "Venue A" ∧
    process_cell_token
      (HtmlCell.mk "Venue A fn" (some "Venue A") (some "venue")) =
      "Venue A fn" ∧
    "Venue A fn" ≠ "Venue A" ∧
    extract_tables_row
      [HtmlCell.mk "Arsenal fn" (some "Arsenal") none] = ["Arsenal fn"] := by
  decide

/-- C9 amended.  Only `home_team`/`away_team` cells of the match-row
tokenizer prefer the link text; every other cell — and every cell of the
team-stats table extractor — is tokenized to its raw text. -/
theorem cell_token_amended :
    (∀ (td : HtmlCell) (lt : String), td.linkText = some lt →
      (td.dataStat = some "home_team" ∨ td.dataStat = some "away_team") →
      process_cell_token td = lt) ∧
    (∀ td : HtmlCell,
      td.linkText = none ∨
        (td.dataStat ≠ some "home_team" ∧ td.dataStat ≠ some "away_team") →
      process_cell_token td = td.rawText) ∧
    (∀ cells : List HtmlCell,
      extract_tables_row cells = cells.map (fun c => c.rawText)) := by
  refine ⟨?_, ?_, fun _ => rfl⟩
  · intro td lt hlt hds
    rcases hds with h | h <;>
      simp [process_cell_token, hlt, h]
  · intro td h
    rcases h with h | ⟨h1, h2⟩
    · simp [process_cell_token, h]
    · rcases hl : td.linkText with _ | lt
      · simp [process_cell_token, hl]
      · simp [process_cell_token, hl, h1, h2]

/-- C9 amended witness: a `home_team` cell with link text `"Arsenal"`. -/
theorem cell_token_amended_witness :
    process_cell_token
      (HtmlCell.mk "Arsenal fn" (some "Arsenal") (some "home_team")) =
      "Arsenal" :=
  cell_token_amended.1 _ "Arsenal" rfl (Or.inl rfl)

/-! ## C8: team alias resolution -/

theorem scalar_none {α : Type} {p : α → Bool} {l : List α}
    (h : l.filter p = []) : scalarOneOrNone p l = .ok none := by
  simp [scalarOneOrNone, h]

theorem scalar_some {α : Type} {p : α → Bool} {l : List α} {a : α}
    (h : l.filter p = [a]) : scalarOneOrNone p l = .ok (some a) := by
  simp [scalarOneOrNone, h]

/-- A one-competition store with no teams yet, and its two successor states
as `FBrefScraper._get_or_create_team` is fed the two raw Brighton
spellings. -/
def plDb : Db OverallFields :=
  ⟨[⟨1, "Premier League"⟩], [], [], 2, 1⟩

def plDbB1 : Db OverallFields :=
  ⟨[⟨1, "Premier League"⟩], [⟨1, some "Brighton", 1⟩], [], 2, 2⟩

def plDbB2 : Db OverallFields :=
  ⟨[⟨1, "Premier League"⟩],
   [⟨1, some "Brighton", 1⟩, ⟨2, some "Brighton & Hove Albion", 1⟩], [], 2, 3⟩

/-- C8 counterexample.  `FBrefScraper._get_or_create_team` does not
standardize: fed raw `"Brighton"` and then `"Brighton & Hove Albion"` it
creates two distinct Team rows, although the alias table maps `"Brighton"`
to `"Brighton & Hove Albion"`. -/
theorem fbref_team_resolution_counterexample :
    fbref_get_or_create_team (F := OverallFields) "Brighton" 1
        ⟨plDb, plDb⟩ = .ok (⟨1, some "Brighton", 1⟩, ⟨plDbB1, plDbB1⟩) ∧
    fbref_get_or_create_team (F := OverallFields) "Brighton & Hove Albion" 1
        ⟨plDbB1, plDbB1⟩ =
      .ok (⟨2, some "Brighton & Hove Albion", 1⟩, ⟨plDbB2, plDbB2⟩) ∧
    plDbB2.teams.length = 2 ∧
    get_standardized_team_name (some "Brighton") "Premier League" =
      some "Brighton & Hove Albion" := by
  decide

/-- C8 amended.  The table scrapers' `BaseTableScraper._get_or_create_team`
standardizes before lookup and creation: starting from any store with no
team named `"Brighton & Hove Albion"`, resolving raw `"Brighton"` and then
raw `"Brighton & Hove Albion"` yields one and the same Team row, named
canonically — but `FBrefScraper._get_or_create_team` resolves raw names and
can duplicate (see the counterexample). -/
theorem get_or_create_team_standardizes :
    ∀ (F : Type) (s0 : Session F) (cid cid2 : Nat),
      (∀ t ∈ s0.current.teams, t.name ≠ some "Brighton & Hove Albion") →
      ∃ t1 s1,
        get_or_create_team "Brighton" cid s0 = .ok (t1, s1) ∧
        get_or_create_team "Brighton & Hove Albion" cid2 s1 = .ok (t1, s1) ∧
        t1.name = some "Brighton & Hove Albion" ∧
        s1.current.teams = s0.current.teams ++ [t1] ∧
        (s1.current.teams.filter
          (fun t => t.name == some "Brighton & Hove Albion")).length = 1 := by
  intro F s0 cid cid2 hnone
  have hstd1 : get_standardized_team_name (some "Brighton") "Premier League" =
      some "Brighton & Hove Albion" := by decide
  have hstd2 : get_standardized_team_name (some "Brighton & Hove Albion")
      "Premier League" = some "Brighton & Hove Albion" := by decide
  have hfil : s0.current.teams.filter
      (fun t => t.name == some "Brighton & Hove Albion") = [] := by
    refine List.filter_eq_nil_iff.mpr (fun t ht => ?_)
    simpa using hnone t ht
  refine ⟨⟨s0.current.nextTeamId, some "Brighton & Hove Albion", cid⟩,
    ⟨{ s0.current with
        teams := s0.current.teams ++
          [⟨s0.current.nextTeamId, some "Brighton & Hove Albion", cid⟩],
        nextTeamId := s0.current.nextTeamId + 1 },
      { s0.current with
        teams := s0.current.teams ++
          [⟨s0.current.nextTeamId, some "Brighton & Hove Albion", cid⟩],
        nextTeamId := s0.current.nextTeamId + 1 }⟩,
    ?_, ?_, rfl, rfl, ?_⟩
  · rw [get_or_create_team, hstd1]
    rw [scalar_none hfil]
    rfl
  · rw [get_or_create_team, hstd2]
    have hone : (s0.current.teams ++
        [(⟨s0.current.nextTeamId, some "Brighton & Hove Albion", cid⟩ :
          Team)]).filter
          (fun t => t.name == some "Brighton & Hove Albion") =
        [(⟨s0.current.nextTeamId, some "Brighton & Hove Albion", cid⟩ :
          Team)] := by
      rw [List.filter_append, hfil]
      rfl
    rw [scalar_some hone]
    rfl
  · rw [List.filter_append, hfil]
    rfl

/-- C8 amended witness: the empty store. -/
theorem get_or_create_team_standardizes_witness :
    ∃ t1 s1,
      get_or_create_team "Brighton" 1
        (⟨⟨[], [], [], 1, 1⟩, ⟨[], [], [], 1, 1⟩⟩ : Session OverallFields) =
        .ok (t1, s1) ∧
      get_or_create_team "Brighton & Hove Albion" 1 s1 = .ok (t1, s1) ∧
      t1.name = some "Brighton & Hove Albion" ∧
      s1.current.teams = [] ++ [t1] ∧
      (s1.current.teams.filter
        (fun t => t.name == some "Brighton & Hove Albion")).length = 1 :=
  get_or_create_team_standardizes OverallFields _ 1 1 (by decide)

/-! ## C7: header-alias resolution order -/

theorem hm_fold_no_match {key : String} {l : List String} :
    ∀ (n : Nat) (acc : Option Nat), (∀ s ∈ l, pyLower s ≠ key) →
      (List.enumFrom n l).foldl
        (fun a p => if pyLower p.2 == key then some p.1 else a) acc = acc := by
  induction l with
  | nil => intro n acc _; rfl
  | cons s rest ih =>
    intro n acc h
    have hs : (pyLower s == key) = false := by
      simpa using h s (by simp)
    simp only [List.enumFrom, List.foldl_cons, hs, Bool.false_eq_true,
      if_false]
    exact ih (n + 1) acc (fun x hx => h x (by simp [hx]))

/-- Claim C7, general part and the claim's concrete instance.  The resolver
builds a map from lowercased header text to column index (last occurrence
winning, as the Python dict comprehension overwrites); a present alias wins
over the declared fallback, which is used only when the alias is absent.
Concretely: with stat name `"MP"` at header index 3 and fallback index 2,
the keeper mapper reads the cell at index 3. -/
theorem header_alias_resolution :
    (∀ (header_stats : List String) (key : String) (dflt : Nat),
      (∀ s ∈ header_stats, pyLower s ≠ key) →
      header_map_get header_stats key dflt = dflt) ∧
    (∀ (pre post : List String) (hd key : String) (dflt : Nat),
      pyLower hd = key → (∀ s ∈ post, pyLower s ≠ key) →
      header_map_get (pre ++ hd :: post) key dflt = pre.length) ∧
    (header_map_get
        ["Squad", "# Pl", "Age", "MP", "Starts", "Min", "90s", "GA", "GA90",
         "SoTA", "Saves", "Save%", "W", "D", "L", "CS", "CS%", "PKatt",
         "PKA", "PKsv", "PKm"] "mp" 2 = 3 ∧
      (keeper_map_row_to_stats
        ["Squad", "# Pl", "Age", "MP", "Starts", "Min", "90s", "GA", "GA90",
         "SoTA", "Saves", "Save%", "W", "D", "L", "CS", "CS%", "PKatt",
         "PKA", "PKsv", "PKm"]
        ["vs Arsenal", "26", "27.1", "7", "2", "180", "2.0", "1", "0.50",
         "9", "6", "85.7", "1", "1", "0", "1", "50.0", "0", "0", "0",
         "0"]).map (fun rec => rec.matches_played) = .ok 7) := by
  refine ⟨?_, ?_, by decide, by decide⟩
  · intro header_stats key dflt h
    rw [header_map_get, List.enum, hm_fold_no_match 0 none h]
  · intro pre post hd key dflt hhd hpost
    rw [header_map_get, List.enum, List.enumFrom_append,
      List.foldl_append]
    have hcond : (pyLower hd == key) = true := by simp [hhd]
    simp only [List.enumFrom, List.foldl_cons, hcond, if_true]
    rw [hm_fold_no_match (0 + pre.length + 1) _ hpost]
    simp

/-- C7 witness: the fallback clause at a header without `"mp"`. -/
theorem header_alias_resolution_witness :
    header_map_get ["Squad", "Age"] "mp" 2 = 2 :=
  header_alias_resolution.1 ["Squad", "Age"] "mp" 2 (by decide)

/-! ## Shared lemmas about the upsert machinery -/

theorem filter_eq_singleton_of {α : Type} {R : α → α → Prop} {l : List α}
    {p : α → Bool} {a : α} (hpw : l.Pairwise R)
    (hirr : ∀ x y, R x y → p x = true → p y = true → False)
    (ha : a ∈ l) (hpa : p a = true) : l.filter p = [a] := by
  induction l with
  | nil => cases ha
  | cons x xs ih =>
    rw [List.pairwise_cons] at hpw
    obtain ⟨hxR, hpw'⟩ := hpw
    rcases List.mem_cons.mp ha with rfl | haxs
    · rw [List.filter_cons, if_pos (by simpa using hpa)]
      have hnil : xs.filter p = [] := by
        refine List.filter_eq_nil_iff.mpr (fun y hy hpy => ?_)
        exact hirr a y (hxR y hy) hpa (by simpa using hpy)
      rw [hnil]
    · have hpx : p x = false := by
        by_contra hpx
        exact hirr x a (hxR a haxs) (by simpa using hpx) hpa
      rw [List.filter_cons, if_neg (by simp [hpx])]
      exact ih hpw' haxs

@[simp]
theorem except_bind_ok {ε α β : Type} (a : α) (f : α → Except ε β) :
    (Except.ok a : Except ε α) >>= f = f a := rfl

@[simp]
theorem except_pure_eq {ε α : Type} (a : α) :
    (pure a : Except ε α) = Except.ok a := rfl

theorem commitS_fresh {F : Type} {s : Session F}
    (h : s.committed = s.current) : commitS s = s := by
  cases s with
  | mk com cur => cases h; rfl

theorem pyGet_ok {row : List String} {i : Nat} {v : String}
    (h : row.get? i = some v) : pyGet row i = .ok v := by
  unfold pyGet
  rw [h]

/-- Name-distinctness makes a name filter on competitions a singleton. -/
theorem comp_filter_singleton {l : List Competition} {c : Competition}
    (hpw : l.Pairwise (fun a b => a.name ≠ b.name)) (hc : c ∈ l) :
    l.filter (fun x => x.name == c.name) = [c] := by
  refine filter_eq_singleton_of hpw ?_ hc (by simp)
  intro x y hR hx hy
  exact hR ((by simpa using hx : x.name = c.name).trans
    (by simpa using hy : y.name = c.name).symm)

/-- Name-distinctness makes a name filter on teams a singleton. -/
theorem team_filter_singleton {l : List Team} {t : Team} {nm : Option String}
    (hpw : l.Pairwise (fun a b => a.name ≠ b.name)) (ht : t ∈ l)
    (hnm : t.name = nm) : l.filter (fun x => x.name == nm) = [t] := by
  refine filter_eq_singleton_of hpw ?_ ht (by simp [hnm])
  intro x y hR hx hy
  exact hR ((by simpa using hx : x.name = nm).trans
    (by simpa using hy : y.name = nm).symm)

/-- Model of the found branch of `_get_or_create_competition`. -/
theorem gocc_found {F : Type} {s : Session F} {c : Competition}
    (hpw : s.current.competitions.Pairwise (fun a b => a.name ≠ b.name))
    (hc : c ∈ s.current.competitions) :
    get_or_create_competition c.name s = .ok (c, s) := by
  rw [get_or_create_competition, scalar_some (comp_filter_singleton hpw hc)]
  rfl

/-- Model of the create branch of `_get_or_create_competition`. -/
theorem gocc_create {F : Type} {s : Session F} {cn : String}
    (hnone : ∀ c ∈ s.current.competitions, c.name ≠ cn) :
    get_or_create_competition cn s =
      .ok (⟨s.current.nextCompId, cn⟩,
        ⟨{ s.current with
            competitions := s.current.competitions ++
              [⟨s.current.nextCompId, cn⟩],
            nextCompId := s.current.nextCompId + 1 },
          { s.current with
            competitions := s.current.competitions ++
              [⟨s.current.nextCompId, cn⟩],
            nextCompId := s.current.nextCompId + 1 }⟩) := by
  have hfil : s.current.competitions.filter (fun x => x.name == cn) = [] :=
    List.filter_eq_nil_iff.mpr (fun c hc => by simpa using hnone c hc)
  rw [get_or_create_competition, scalar_none hfil]
  rfl

/-- Model of the found branch of `_get_or_create_team`. -/
theorem goct_found {F : Type} {s : Session F} {t : Team} {nm : String}
    {cid : Nat}
    (hpw : s.current.teams.Pairwise (fun a b => a.name ≠ b.name))
    (ht : t ∈ s.current.teams)
    (hnm : t.name = get_standardized_team_name (some nm) "Premier League") :
    get_or_create_team nm cid s = .ok (t, s) := by
  rw [get_or_create_team, scalar_some (team_filter_singleton hpw ht hnm)]
  rfl

/-- Model of the create branch of `_get_or_create_team`. -/
theorem goct_create {F : Type} {s : Session F} {nm : String} {cid : Nat}
    (hnone : ∀ u ∈ s.current.teams,
      u.name ≠ get_standardized_team_name (some nm) "Premier League") :
    get_or_create_team nm cid s =
      .ok (⟨s.current.nextTeamId,
            get_standardized_team_name (some nm) "Premier League", cid⟩,
        ⟨{ s.current with
            teams := s.current.teams ++
              [⟨s.current.nextTeamId,
                get_standardized_team_name (some nm) "Premier League", cid⟩],
            nextTeamId := s.current.nextTeamId + 1 },
          { s.current with
            teams := s.current.teams ++
              [⟨s.current.nextTeamId,
                get_standardized_team_name (some nm) "Premier League", cid⟩],
            nextTeamId := s.current.nextTeamId + 1 }⟩) := by
  have hfil : s.current.teams.filter (fun x =>
      x.name == get_standardized_team_name (some nm) "Premier League") =
      [] :=
    List.filter_eq_nil_iff.mpr (fun u hu => by simpa using hnone u hu)
  rw [get_or_create_team, scalar_none hfil]
  rfl

/-! ## C4: integer-field mapping -/

def keeperHdr : List String :=
  ["Squad", "# Pl", "Age", "MP", "Starts", "Min", "90s", "GA", "GA90",
   "SoTA", "Saves", "Save%", "W", "D", "L", "CS", "CS%", "PKatt", "PKA",
   "PKsv", "PKm"]

def keeperRowBadMp : List String :=
  ["vs Chelsea", "26", "27.1", "X", "2", "180", "2.0", "1", "0.50", "9",
   "6", "85.7", "1", "1", "0", "1", "50.0", "0", "0", "0", "0"]

/-- C4 counterexample.  In the squad-keeper-against mapper the MP cell is
converted with a bare `int()`: non-digit text `"X"` raises `ValueError`
instead of mapping the field to null. -/
theorem keeper_int_field_counterexample :
    pyIsDigit "X" = false ∧
    keeper_map_row_to_stats keeperHdr keeperRowBadMp =
      .error "ValueError" := by
  decide

/-- C4 amended.  Only the overall-results mapper guards its integer fields
(rk, mp, w, d, l, gf, ga, pts) with `isdigit`: for those fields non-digit
cleaned text maps to null and raises nothing, provided the unguarded gd
cell is empty or integral; the squad-against mappers' integer fields are
unguarded and raise (see the counterexample). -/
theorem overall_guarded_int_fields :
    ∀ (c0 c1 c2 c3 c4 c5 c6 c7 c8 c9 c10 c11 c12 c13 c14 : String)
      (rest : List String),
      (c8 = "" ∨ ∃ n, pyInt (pyRemoveChar c8 '+') = .ok n) →
      ∃ rec, overall_map_row_to_stats
          (c0 :: c1 :: c2 :: c3 :: c4 :: c5 :: c6 :: c7 :: c8 :: c9 ::
            c10 :: c11 :: c12 :: c13 :: c14 :: rest) = .ok rec ∧
        (pyIsDigit c0 = false → rec.rk = none) ∧
        (pyIsDigit c2 = false → rec.mp = none) ∧
        (pyIsDigit c3 = false → rec.w = none) ∧
        (pyIsDigit c4 = false → rec.d = none) ∧
        (pyIsDigit c5 = false → rec.l = none) ∧
        (pyIsDigit c6 = false → rec.gf = none) ∧
        (pyIsDigit c7 = false → rec.ga = none) ∧
        (pyIsDigit c9 = false → rec.pts = none) := by
  intro c0 c1 c2 c3 c4 c5 c6 c7 c8 c9 c10 c11 c12 c13 c14 rest h8
  by_cases hc8 : c8 = ""
  · subst hc8
    have heq : overall_map_row_to_stats
        (c0 :: c1 :: c2 :: c3 :: c4 :: c5 :: c6 :: c7 :: "" :: c9 ::
          c10 :: c11 :: c12 :: c13 :: c14 :: rest) =
        .ok { rk := intIfDigit c0, squad := c1, mp := intIfDigit c2,
              w := intIfDigit c3, d := intIfDigit c4, l := intIfDigit c5,
              gf := intIfDigit c6, ga := intIfDigit c7, gd := none,
              pts := intIfDigit c9, pts_per_mp := parse_numeric_value c10,
              xg := parse_numeric_value c11, xga := parse_numeric_value c12,
              xgd := parse_numeric_value c13,
              xgd_per_90 := parse_numeric_value c14 } := by
      simp [overall_map_row_to_stats, pyGet]
    exact ⟨_, heq, fun hd => by simp [intIfDigit, hd],
      fun hd => by simp [intIfDigit, hd], fun hd => by simp [intIfDigit, hd],
      fun hd => by simp [intIfDigit, hd], fun hd => by simp [intIfDigit, hd],
      fun hd => by simp [intIfDigit, hd], fun hd => by simp [intIfDigit, hd],
      fun hd => by simp [intIfDigit, hd]⟩
  · have hn : ∃ n, pyInt (pyRemoveChar c8 '+') = .ok n := by
      rcases h8 with h | h
      · exact absurd h hc8
      · exact h
    obtain ⟨n, hn⟩ := hn
    have heq : overall_map_row_to_stats
        (c0 :: c1 :: c2 :: c3 :: c4 :: c5 :: c6 :: c7 :: c8 :: c9 ::
          c10 :: c11 :: c12 :: c13 :: c14 :: rest) =
        .ok { rk := intIfDigit c0, squad := c1, mp := intIfDigit c2,
              w := intIfDigit c3, d := intIfDigit c4, l := intIfDigit c5,
              gf := intIfDigit c6, ga := intIfDigit c7, gd := some n,
              pts := intIfDigit c9, pts_per_mp := parse_numeric_value c10,
              xg := parse_numeric_value c11, xga := parse_numeric_value c12,
              xgd := parse_numeric_value c13,
              xgd_per_90 := parse_numeric_value c14 } := by
      simp [overall_map_row_to_stats, pyGet, hc8, hn, Except.map]
    exact ⟨_, heq, fun hd => by simp [intIfDigit, hd],
      fun hd => by simp [intIfDigit, hd], fun hd => by simp [intIfDigit, hd],
      fun hd => by simp [intIfDigit, hd], fun hd => by simp [intIfDigit, hd],
      fun hd => by simp [intIfDigit, hd], fun hd => by simp [intIfDigit, hd],
      fun hd => by simp [intIfDigit, hd]⟩

/-- C4 amended witness: the non-digit MP cell `"X"` maps to null in the
overall-results mapper. -/
theorem overall_guarded_int_fields_witness :
    ∃ rec, overall_map_row_to_stats
        ["1", "Arsenal", "X", "1", "1", "0", "3", "1", "+2", "4", "2.0",
         "1.5", "0.8", "0.7", "0.35"] = .ok rec ∧
      (pyIsDigit "1" = false → rec.rk = none) ∧
      (pyIsDigit "X" = false → rec.mp = none) ∧
      (pyIsDigit "1" = false → rec.w = none) ∧
      (pyIsDigit "1" = false → rec.d = none) ∧
      (pyIsDigit "0" = false → rec.l = none) ∧
      (pyIsDigit "3" = false → rec.gf = none) ∧
      (pyIsDigit "1" = false → rec.ga = none) ∧
      (pyIsDigit "4" = false → rec.pts = none) :=
  overall_guarded_int_fields "1" "Arsenal" "X" "1" "1" "0" "3" "1" "+2"
    "4" "2.0" "1.5" "0.8" "0.7" "0.35" []
    (Or.inr ⟨2, by decide⟩)

/-! ## C5: short-row handling -/

def overallHdr15 : List String :=
  ["Rk", "Squad", "MP", "W", "D", "L", "GF", "GA", "GD", "Pts", "Pts/MP",
   "xG", "xGA", "xGD", "xGD/90"]

def shortRow12 : List String :=
  ["3", "Liverpool", "2", "2", "0", "0", "5", "1", "+4", "6", "3.0", "2.1"]

def emptyODb : Db OverallFields :=
  ⟨[], [], [], 1, 1⟩

/-- C5 counterexample.  The overall-results scraper compares row length
against the constant 10, not the header length: a 12-cell row under a
15-cell header is not skipped; its mapping raises `IndexError`, the whole
run fails, and the already-committed team row remains — nothing is skipped
with a warning. -/
theorem overall_short_row_counterexample :
    shortRow12.length = 12 ∧ overallHdr15.length = 15 ∧
    overallOps.skipRow shortRow12 = false ∧
    (overall_save_to_db "2024-25" "Premier League"
      [("overall results", [overallHdr15, shortRow12])]
      ⟨emptyODb, emptyODb⟩).1 = .error "IndexError" ∧
    (overall_save_to_db "2024-25" "Premier League"
      [("overall results", [overallHdr15, shortRow12])]
      ⟨emptyODb, emptyODb⟩).2.1.committed.teams.length = 1 := by
  decide

theorem keeper_skip_short_row {season : String} {cid : Nat}
    {hs : List String} {s : Session KeeperFields} {row : List String}
    (h : row.length < hs.length) :
    processRow season cid (keeperOps hs) s row = .ok (s, 1) := by
  have hskip : (keeperOps hs).skipRow row = true := by
    simp [keeperOps, h]
  rw [processRow, if_pos hskip]
  rfl

/-- C5 amended.  In the squad-keeper-against scraper (and its standard
twin), a data row with fewer cells than the stat-name header row is skipped
with one warning: the loop body leaves the session untouched, and a
single-data-row save returns success with the statistics and teams tables
unchanged and exactly one warning. -/
theorem keeper_short_row_skipped :
    (∀ (season : String) (cid : Nat) (hs : List String)
      (s : Session KeeperFields) (row : List String),
      row.length < hs.length →
      processRow season cid (keeperOps hs) s row = .ok (s, 1)) ∧
    (∀ (season comp : String) (info hs row : List String)
      (s0 : Session KeeperFields),
      s0.committed = s0.current →
      s0.current.competitions.Pairwise (fun a b => a.name ≠ b.name) →
      row.length < hs.length →
      ∃ s1, keeper_save_to_db season comp
          [("stats_squads_keeper_against", [info, hs, row])] s0 =
          (.ok (), s1, 1) ∧
        s1.current.stats = s0.current.stats ∧
        s1.current.teams = s0.current.teams) := by
  constructor
  · intro season cid hs s row h
    exact keeper_skip_short_row h
  · intro season comp info hs row s0 hfresh hpw hlen
    have hfind : find_squad_keeper_table
        [("stats_squads_keeper_against", [info, hs, row])] =
        some [info, hs, row] := by
      rw [find_squad_keeper_table, List.find?_cons_of_pos _ (by
        show pyInStr (pyLower "stats_squads_keeper_against")
          "stats_squads_keeper_against" = true
        decide)]
      rfl
    have hloop : ∀ (cid : Nat) (s : Session KeeperFields),
        processRows season cid (keeperOps hs) s [row] = .ok (s, 1) := by
      intro cid s
      simp only [processRows, keeper_skip_short_row hlen]
    by_cases hex : ∃ c ∈ s0.current.competitions, c.name = comp
    · obtain ⟨c, hc, hcn⟩ := hex
      subst hcn
      refine ⟨s0, ?_, rfl, rfl⟩
      rw [keeper_save_to_db, gocc_found hpw hc, hfind]
      simp only [List.length_cons, List.length_nil]
      rw [if_neg (by norm_num)]
      rw [show ([info, hs, row].getD 1 []) = hs from rfl,
        show ([info, hs, row].drop 2) = [row] from rfl]
      rw [hloop]
      simp [commitS_fresh hfresh]
    · push_neg at hex
      rw [keeper_save_to_db, gocc_create hex, hfind]
      refine ⟨⟨{ s0.current with
          competitions := s0.current.competitions ++
            [⟨s0.current.nextCompId, comp⟩],
          nextCompId := s0.current.nextCompId + 1 },
        { s0.current with
          competitions := s0.current.competitions ++
            [⟨s0.current.nextCompId, comp⟩],
          nextCompId := s0.current.nextCompId + 1 }⟩, ?_, rfl, rfl⟩
      simp only [List.length_cons, List.length_nil]
      rw [if_neg (by norm_num)]
      rw [show ([info, hs, row].getD 1 []) = hs from rfl,
        show ([info, hs, row].drop 2) = [row] from rfl]
      rw [hloop]
      simp [commitS]

/-- C5 amended witness: a one-cell row under a two-cell header. -/
theorem keeper_short_row_skipped_witness :
    processRow "2024-25" 1 (keeperOps ["Squad", "MP"])
      (⟨⟨[], [], [], 1, 1⟩, ⟨[], [], [], 1, 1⟩⟩ : Session KeeperFields)
      ["vs Arsenal"] =
      .ok (⟨⟨[], [], [], 1, 1⟩, ⟨[], [], [], 1, 1⟩⟩, 1) :=
  keeper_short_row_skipped.1 "2024-25" 1 ["Squad", "MP"] _ ["vs Arsenal"]
    (by decide)

/-! ## C6: locator sentinel and table-family skipping -/

/-- Claim C6.  When no table id (lowercased) contains both of the
overall-results identifier substrings, the locator returns the `None`
sentinel — it never raises, being total — and the save run returns success
(with the locator's warning) leaving the statistics and team tables
untouched, so other table families can still be processed. -/
theorem overall_table_not_found :
    (∀ tables_data : TablesData,
      (∀ p ∈ tables_data,
        (pyInStr (pyLower p.1) "overall" &&
          pyInStr (pyLower p.1) "results") = false) →
      find_overall_table tables_data = none) ∧
    (∀ (season comp : String) (tables_data : TablesData)
      (s0 : Session OverallFields),
      s0.committed = s0.current →
      s0.current.competitions.Pairwise (fun a b => a.name ≠ b.name) →
      find_overall_table tables_data = none →
      ∃ s1, overall_save_to_db season comp tables_data s0 =
          (.ok (), s1, 1) ∧
        s1.current.stats = s0.current.stats ∧
        s1.current.teams = s0.current.teams) := by
  constructor
  · intro tables_data h
    have hfn : tables_data.find? (fun p =>
        pyInStr (pyLower p.1) "overall" &&
          pyInStr (pyLower p.1) "results") = none := by
      refine List.find?_eq_none.mpr (fun p hp => ?_)
      simp [h p hp]
    simp [find_overall_table, hfn]
  · intro season comp tables_data s0 hfresh hpw hnone
    by_cases hex : ∃ c ∈ s0.current.competitions, c.name = comp
    · obtain ⟨c, hc, hcn⟩ := hex
      subst hcn
      refine ⟨s0, ?_, rfl, rfl⟩
      rw [overall_save_to_db, gocc_found hpw hc, hnone]
    · push_neg at hex
      rw [overall_save_to_db, gocc_create hex, hnone]
      exact ⟨_, rfl, rfl, rfl⟩

/-- C6 witness: the claim's three concrete table ids with the empty
store. -/
theorem overall_table_not_found_witness :
    find_overall_table
      [("sched_9", []), ("stats_squads_standard_against", []),
       ("random", [])] = none ∧
    ∃ s1, overall_save_to_db "2024-25" "Premier League"
        [("sched_9", []), ("stats_squads_standard_against", []),
         ("random", [])] ⟨emptyODb, emptyODb⟩ = (.ok (), s1, 1) ∧
      s1.current.stats = (⟨emptyODb, emptyODb⟩ :
        Session OverallFields).current.stats ∧
      s1.current.teams = (⟨emptyODb, emptyODb⟩ :
        Session OverallFields).current.teams :=
  ⟨overall_table_not_found.1 _ (by decide),
   overall_table_not_found.2 "2024-25" "Premier League" _ _ rfl
     (by decide) (overall_table_not_found.1 _ (by decide))⟩

/-! ## C3: transactional behaviour of a save run -/

theorem processRow_no_create {F : Type} {season : String} {cid : Nat}
    {ops : FamilyOps F} {s : Session F} {row : List String}
    (hpw : s.current.teams.Pairwise (fun a b => a.name ≠ b.name))
    (hteam : ops.skipRow row = false →
      ∃ t ∈ s.current.teams, (ops.teamNameOfRow row).toOption.map
        (fun nm => get_standardized_team_name (some nm) "Premier League") =
        some t.name) :
    (∃ s' w, processRow season cid ops s row = .ok (s', w) ∧
      s'.committed = s.committed ∧
      s'.current.teams = s.current.teams ∧
      s'.current.competitions = s.current.competitions) ∨
    (∃ e serr, processRow season cid ops s row = .error (e, serr) ∧
      serr.committed = s.committed) := by
  by_cases hskip : ops.skipRow row = true
  · exact Or.inl ⟨s, _, by rw [processRow, if_pos hskip], rfl, rfl, rfl⟩
  · have hskipf : ops.skipRow row = false := by simpa using hskip
    rcases hnm : ops.teamNameOfRow row with e | nm
    · exact Or.inr ⟨e, s,
        by simp only [processRow, hskipf, Bool.false_eq_true, if_false, hnm],
        rfl⟩
    · obtain ⟨t, ht, hmap⟩ := hteam hskipf
      have hstd : t.name =
          get_standardized_team_name (some nm) "Premier League" := by
        rw [hnm] at hmap
        simpa [Except.toOption] using hmap.symm
      have hgoct := @goct_found F s t nm cid hpw ht hstd
      rcases hsc : scalarOneOrNone (recordKeyMatch t.id cid season)
          s.current.stats with e | existing
      · exact Or.inr ⟨e, s,
          by simp only [processRow, hskipf, Bool.false_eq_true, if_false,
            hnm, hgoct, hsc], rfl⟩
      · rcases hmr : ops.mapRow row with e | fields
        · exact Or.inr ⟨e, s,
            by simp only [processRow, hskipf, Bool.false_eq_true, if_false,
              hnm, hgoct, hsc, hmr], rfl⟩
        · cases existing with
          | none =>
            refine Or.inl ⟨{ s with current := { s.current with
                stats := s.current.stats ++ [⟨t.id, cid, season, fields⟩] } },
              0, ?_, rfl, rfl, rfl⟩
            simp only [processRow, hskipf, Bool.false_eq_true, if_false,
              hnm, hgoct, hsc, hmr]
          | some r0 =>
            refine Or.inl ⟨{ s with current := { s.current with
                stats := s.current.stats.map (fun r =>
                  if recordKeyMatch t.id cid season r then
                    { r with fields := fields }
                  else r) } },
              0, ?_, rfl, rfl, rfl⟩
            simp only [processRow, hskipf, Bool.false_eq_true, if_false,
              hnm, hgoct, hsc, hmr]

theorem processRows_no_create {F : Type} {season : String} {cid : Nat}
    {ops : FamilyOps F} :
    ∀ (rows : List (List String)) (s : Session F),
      s.current.teams.Pairwise (fun a b => a.name ≠ b.name) →
      (∀ r ∈ rows, ops.skipRow r = false →
        ∃ t ∈ s.current.teams, (ops.teamNameOfRow r).toOption.map
          (fun nm => get_standardized_team_name (some nm) "Premier League") =
          some t.name) →
      (∀ s' w, processRows season cid ops s rows = .ok (s', w) →
        s'.committed = s.committed) ∧
      (∀ e serr, processRows season cid ops s rows = .error (e, serr) →
        serr.committed = s.committed) := by
  intro rows
  induction rows with
  | nil =>
    intro s _ _
    constructor
    · intro s' w h
      simp only [processRows] at h
      cases h
      rfl
    · intro e serr h
      simp only [processRows] at h
      cases h
  | cons row rest ih =>
    intro s hpw hteam
    rcases @processRow_no_create F season cid ops s row hpw
        (hteam row (by simp)) with
      ⟨s1, w1, hpr, hcom, hteams, _⟩ | ⟨e, serr, hpr, hcom⟩
    · have ih' := ih s1 (hteams ▸ hpw) (fun r hr hsk => by
        rw [hteams]
        exact hteam r (by simp [hr]) hsk)
      constructor
      · intro s' w h
        simp only [processRows, hpr] at h
        rcases hrest : processRows season cid ops s1 rest with e2 | ⟨s2, w2⟩
        · rw [hrest] at h
          cases h
        · rw [hrest] at h
          simp only [Except.ok.injEq, Prod.mk.injEq] at h
          obtain ⟨rfl, rfl⟩ := h
          exact (ih'.1 s2 w2 hrest).trans hcom
      · intro e2 serr2 h
        simp only [processRows, hpr] at h
        rcases hrest : processRows season cid ops s1 rest with
          ⟨e3, serr3⟩ | p2
        · rw [hrest] at h
          simp only [Except.error.injEq, Prod.mk.injEq] at h
          obtain ⟨rfl, rfl⟩ := h
          exact (ih'.2 e3 serr3 hrest).trans hcom
        · rw [hrest] at h
          cases h
    · constructor
      · intro s' w h
        simp only [processRows, hpr] at h
        cases h
      · intro e2 serr2 h
        simp only [processRows, hpr] at h
        simp only [Except.error.injEq, Prod.mk.injEq] at h
        obtain ⟨rfl, rfl⟩ := h
        exact hcom

def overallRowA : List String :=
  ["1", "Arsenal", "2", "1", "1", "0", "3", "1", "+2", "4", "2.0", "1.5",
   "0.8", "0.7", "0.35"]

def overallRowBadGd : List String :=
  ["2", "Chelsea", "2", "1", "0", "1", "2", "2", "x", "3", "1.5", "1.2",
   "1.1", "0.1", "0.05"]

def tdBadGd : TablesData :=
  [("overall results", [overallHdr15, overallRowA, overallRowBadGd])]

/-- C3 counterexample.  From an empty store, a run whose second data row
fails to map commits a PARTIAL batch: processing the second row creates its
team, and that mid-run commit also commits the first row's staged record;
the subsequent rollback cannot remove it, so the failed run leaves one
statistics row visible. -/
theorem overall_save_partial_batch_counterexample :
    (overall_save_to_db "2024-25" "Premier League" tdBadGd
      ⟨emptyODb, emptyODb⟩).1 = .error "ValueError" ∧
    (overall_save_to_db "2024-25" "Premier League" tdBadGd
      ⟨emptyODb, emptyODb⟩).2.1.committed.stats.length = 1 := by
  decide

/-- C3 amended.  A save run is atomic only when it creates no team or
competition mid-run: if the competition and every processed row's
(standardized) team already exist, then a failing run rolls the store back
to exactly the pre-run committed state (no partial batch), and a successful
run commits the whole batch at its single final commit. -/
theorem overall_save_transaction :
    ∀ (season comp : String) (tables_data : TablesData)
      (s0 : Session OverallFields),
      s0.committed = s0.current →
      s0.current.competitions.Pairwise (fun a b => a.name ≠ b.name) →
      s0.current.teams.Pairwise (fun a b => a.name ≠ b.name) →
      (∃ c ∈ s0.current.competitions, c.name = comp) →
      (∀ tbl, find_overall_table tables_data = some tbl →
        ∀ r ∈ tbl.drop 1, overallOps.skipRow r = false →
          ∃ t ∈ s0.current.teams, (overallOps.teamNameOfRow r).toOption.map
            (fun nm =>
              get_standardized_team_name (some nm) "Premier League") =
            some t.name) →
      (∀ e, (overall_save_to_db season comp tables_data s0).1 = .error e →
        (overall_save_to_db season comp tables_data s0).2.1.committed =
          s0.committed ∧
        (overall_save_to_db season comp tables_data s0).2.1.current =
          s0.committed) ∧
      ((overall_save_to_db season comp tables_data s0).1 = .ok () →
        (overall_save_to_db season comp tables_data s0).2.1.committed =
          (overall_save_to_db season comp tables_data s0).2.1.current) := by
  intro season comp tables_data s0 hfresh hpwc hpwt hex hteam
  obtain ⟨c, hc, hcn⟩ := hex
  subst hcn
  have hsave := gocc_found (s := s0) hpwc hc
  rcases hft : find_overall_table tables_data with _ | tbl
  · have hres : overall_save_to_db season c.name tables_data s0 =
        (.ok (), s0, 1) := by
      rw [overall_save_to_db, hsave, hft]
    rw [hres]
    constructor
    · intro e he
      cases he
    · intro _
      exact hfresh
  · by_cases hemp : tbl.isEmpty = true
    · have hres : overall_save_to_db season c.name tables_data s0 =
          (.ok (), s0, 0) := by
        simp only [overall_save_to_db, hsave, hft, hemp, if_true]
      rw [hres]
      constructor
      · intro e he
        cases he
      · intro _
        exact hfresh
    · have hloopfacts := @processRows_no_create OverallFields season c.id
        overallOps (tbl.drop 1) s0 hpwt (hteam tbl hft)
      rcases hloop : processRows season c.id overallOps s0 (tbl.drop 1)
        with ⟨e, serr⟩ | ⟨s2, w⟩
      · have hres : overall_save_to_db season c.name tables_data s0 =
            (.error e, rollbackS serr, 0) := by
          simp only [overall_save_to_db, hsave, hft, hemp,
            Bool.false_eq_true, if_false, hloop]
        rw [hres]
        have hser : serr.committed = s0.committed :=
          hloopfacts.2 e serr hloop
        constructor
        · intro e2 he
          cases he
          exact ⟨hser, hser⟩
        · intro hok
          cases hok
      · have hres : overall_save_to_db season c.name tables_data s0 =
            (.ok (), commitS s2, w) := by
          simp only [overall_save_to_db, hsave, hft, hemp,
            Bool.false_eq_true, if_false, hloop]
        rw [hres]
        constructor
        · intro e he
          cases he
        · intro _
          rfl

def preTeamsDb : Db OverallFields :=
  ⟨[⟨1, "Premier League"⟩],
   [⟨1, some "Arsenal", 1⟩, ⟨2, some "Chelsea", 1⟩], [], 2, 3⟩

/-- C3 amended witness: with the competition and both teams pre-existing,
the same failing input rolls back to the pre-run committed state. -/
theorem overall_save_transaction_witness :
    (overall_save_to_db "2024-25" "Premier League" tdBadGd
      ⟨preTeamsDb, preTeamsDb⟩).2.1.committed =
      (⟨preTeamsDb, preTeamsDb⟩ : Session OverallFields).committed ∧
    (overall_save_to_db "2024-25" "Premier League" tdBadGd
      ⟨preTeamsDb, preTeamsDb⟩).2.1.current =
      (⟨preTeamsDb, preTeamsDb⟩ : Session OverallFields).committed :=
  (overall_save_transaction "2024-25" "Premier League" tdBadGd
    ⟨preTeamsDb, preTeamsDb⟩ rfl (by decide) (by decide)
    ⟨⟨1, "Premier League"⟩, by decide, rfl⟩
    (fun tbl htbl => by
      rw [show find_overall_table tdBadGd =
        some [overallHdr15, overallRowA, overallRowBadGd] from by decide]
        at htbl
      cases htbl
      decide)).1 "ValueError" (by decide)

/-! ## C1: idempotence of the save-to-db upsert -/

/-- The standardization every table scraper applies to a scraped name. -/
def stdOf (nm : String) : Option String :=
  get_standardized_team_name (some nm) "Premier League"

/-- The standardized team name a row will be upserted under, when its
team-name cell is readable. -/
def rowKeyName {F : Type} (ops : FamilyOps F) (row : List String) :
    Option (Option String) :=
  (ops.teamNameOfRow row).toOption.map stdOf

/-- The state a processed row leaves behind: its team exists under the
standardized name and exactly one statistics row carries the row's
(team, season, competition) key, holding the row's mapped fields. -/
def RowEstablished {F : Type} (season : String) (cid : Nat)
    (ops : FamilyOps F) (d : Db F) (row : List String) : Prop :=
  ∃ nm fields t,
    ops.teamNameOfRow row = .ok nm ∧
    ops.mapRow row = .ok fields ∧
    t ∈ d.teams ∧ t.name = stdOf nm ∧
    d.stats.filter (recordKeyMatch t.id cid season) =
      [⟨t.id, cid, season, fields⟩]

theorem filter_len_le_one {α : Type} {R : α → α → Prop} {l : List α}
    {p : α → Bool} (hpw : l.Pairwise R)
    (hirr : ∀ x y, R x y → p x = true → p y = true → False) :
    (l.filter p).length ≤ 1 := by
  induction l with
  | nil => simp
  | cons x xs ih =>
    rw [List.pairwise_cons] at hpw
    obtain ⟨hxR, hpw'⟩ := hpw
    by_cases hpx : p x = true
    · have hnil : xs.filter p = [] := by
        refine List.filter_eq_nil_iff.mpr (fun y hy hpy => ?_)
        exact hirr x y (hxR y hy) hpx (by simpa using hpy)
      rw [List.filter_cons, if_pos (by simpa using hpx), hnil]
      simp
    · rw [List.filter_cons, if_neg (by simpa using hpx)]
      exact ih hpw'

theorem stats_pairwise_irr {F : Type} {tid cid : Nat} {sea : String} :
    ∀ x y : SRecord F,
      (x.team_id ≠ y.team_id ∨ x.season ≠ y.season ∨
        x.competition_id ≠ y.competition_id) →
      recordKeyMatch tid cid sea x = true →
      recordKeyMatch tid cid sea y = true → False := by
  intro x y hR hx hy
  simp only [recordKeyMatch, Bool.and_eq_true, beq_iff_eq] at hx hy
  rcases hR with h | h | h
  · exact h (hx.1.1.trans hy.1.1.symm)
  · exact h (hx.1.2.trans hy.1.2.symm)
  · exact h (hx.2.trans hy.2.symm)

/-- In a well-formed store there is at most one statistics row per key. -/
theorem wf_countKey_le_one {F : Type} {d : Db F} (hwf : Db.wf d)
    (tid cid : Nat) (sea : String) : countKey tid cid sea d.stats ≤ 1 :=
  filter_len_le_one hwf.2.2.1 stats_pairwise_irr

theorem recordKeyMatch_upd {F : Type} {tid cid : Nat} {sea : String}
    (r : SRecord F) (f : F) :
    recordKeyMatch tid cid sea { r with fields := f } =
      recordKeyMatch tid cid sea r := rfl

theorem filter_map_upd {α : Type} {p : α → Bool} {u : α → α}
    (hkeep : ∀ x, p (u x) = p x) :
    ∀ l : List α,
      (l.map (fun x => if p x then u x else x)).filter p =
        (l.filter p).map u := by
  intro l
  induction l with
  | nil => rfl
  | cons x xs ih =>
    by_cases hpx : p x = true
    · simp only [List.map_cons, if_pos hpx, List.filter_cons,
        hkeep x, hpx, if_true, ih]
    · have hpx' : p x = false := by simpa using hpx
      simp only [List.map_cons, hpx', Bool.false_eq_true, if_false,
        List.filter_cons, ih]

theorem filter_map_upd_other {α : Type} {p q : α → Bool} {u : α → α}
    (hq : ∀ x, q (u x) = q x) (hdisj : ∀ x, p x = true → q x = false) :
    ∀ l : List α,
      (l.map (fun x => if p x then u x else x)).filter q = l.filter q := by
  intro l
  induction l with
  | nil => rfl
  | cons x xs ih =>
    by_cases hpx : p x = true
    · have hqx : q x = false := hdisj x hpx
      simp only [List.map_cons, if_pos hpx, List.filter_cons, hq x, hqx,
        Bool.false_eq_true, if_false, ih]
    · have hpx' : p x = false := by simpa using hpx
      simp only [List.map_cons, hpx', Bool.false_eq_true, if_false,
        List.filter_cons, ih]

theorem map_if_id_of_none {α : Type} {p : α → Bool} {u : α → α}
    {l : List α} (h : ∀ y ∈ l, p y = false) :
    l.map (fun x => if p x then u x else x) = l := by
  induction l with
  | nil => rfl
  | cons x xs ih =>
    rw [List.map_cons, if_neg (by simp [h x (by simp)]),
      ih (fun y hy => h y (by simp [hy]))]

theorem map_upd_id {α : Type} {p : α → Bool} {u : α → α} {l : List α}
    {a : α} (hfil : l.filter p = [a]) (hua : u a = a) :
    l.map (fun x => if p x then u x else x) = l := by
  induction l with
  | nil => rfl
  | cons x xs ih =>
    by_cases hpx : p x = true
    · rw [List.filter_cons, if_pos (by simpa using hpx)] at hfil
      injection hfil with hxa hrest
      rw [List.map_cons, if_pos hpx, hxa, hua,
        map_if_id_of_none (fun y hy => by
          by_contra hpy
          have : y ∈ xs.filter p := List.mem_filter.mpr
            ⟨hy, by simpa using hpy⟩
          rw [hrest] at this
          cases this)]
    · rw [List.filter_cons, if_neg (by simpa using hpx)] at hfil
      rw [List.map_cons, if_neg hpx, ih hfil]

theorem keymatch_components {F : Type} {tid cid : Nat} {sea : String}
    {r : SRecord F} (h : recordKeyMatch tid cid sea r = true) :
    r.team_id = tid ∧ r.season = sea ∧ r.competition_id = cid := by
  simp only [recordKeyMatch, Bool.and_eq_true, beq_iff_eq] at h
  exact ⟨h.1.1, h.1.2, h.2⟩

theorem keymatch_self {F : Type} (tid cid : Nat) (sea : String) (f : F) :
    recordKeyMatch tid cid sea (⟨tid, cid, sea, f⟩ : SRecord F) = true := by
  simp [recordKeyMatch]

theorem not_keymatch_components {F : Type} {tid cid : Nat} {sea : String}
    {r : SRecord F} (h : ¬recordKeyMatch tid cid sea r = true) :
    r.team_id ≠ tid ∨ r.season ≠ sea ∨ r.competition_id ≠ cid := by
  by_contra hc
  push_neg at hc
  exact h (by simp [recordKeyMatch, hc.1, hc.2.1, hc.2.2])

theorem keymatch_disjoint {F : Type} {t1 c1 : Nat} {s1 : String}
    {t2 c2 : Nat} {s2 : String} (hne : ¬(t2 = t1 ∧ s2 = s1 ∧ c2 = c1)) :
    ∀ x : SRecord F, recordKeyMatch t1 c1 s1 x = true →
      recordKeyMatch t2 c2 s2 x = false := by
  intro x h1
  by_contra h2
  have h2' : recordKeyMatch t2 c2 s2 x = true := by simpa using h2
  obtain ⟨ha, hb, hc⟩ := keymatch_components h1
  obtain ⟨ha2, hb2, hc2⟩ := keymatch_components h2'
  exact hne ⟨ha2.symm.trans ha, hb2.symm.trans hb, hc2.symm.trans hc⟩

theorem updIf_keys {F : Type} {tid cid : Nat} {sea : String} {f : F}
    (x : SRecord F) :
    ((if recordKeyMatch tid cid sea x then { x with fields := f }
      else x) : SRecord F).team_id = x.team_id ∧
    ((if recordKeyMatch tid cid sea x then { x with fields := f }
      else x) : SRecord F).season = x.season ∧
    ((if recordKeyMatch tid cid sea x then { x with fields := f }
      else x) : SRecord F).competition_id = x.competition_id := by
  by_cases h : recordKeyMatch tid cid sea x = true <;> simp [h]

/-- Resolving a team from a well-formed store: the returned team carries
the standardized name, the store changes only by possibly appending the
created team, and well-formedness is preserved. -/
theorem goct_wf_step {F : Type} {s : Session F} {nm : String} {cid : Nat}
    (hwf : Db.wf s.current) :
    ∃ t s1, get_or_create_team nm cid s = .ok (t, s1) ∧
      t ∈ s1.current.teams ∧ t.name = stdOf nm ∧
      s1.current.competitions = s.current.competitions ∧
      s1.current.stats = s.current.stats ∧
      (∃ ts, s1.current.teams = s.current.teams ++ ts) ∧
      Db.wf s1.current := by
  obtain ⟨hcn, htn, hsn, hidT, hidC⟩ := hwf
  have htnw : s.current.teams.Pairwise (fun a b => a.name ≠ b.name) :=
    htn.imp (fun h => h.1)
  by_cases hexT : ∃ t ∈ s.current.teams, t.name = stdOf nm
  · obtain ⟨t, ht, htname⟩ := hexT
    exact ⟨t, s, goct_found htnw ht htname, ht, htname, rfl, rfl,
      ⟨[], by simp⟩, hcn, htn, hsn, hidT, hidC⟩
  · push_neg at hexT
    refine ⟨_, _, goct_create (fun u hu => hexT u hu), ?_, rfl, rfl, rfl,
      ⟨[⟨s.current.nextTeamId, stdOf nm, cid⟩], rfl⟩, ?_⟩
    · simp
    · refine ⟨hcn, ?_, hsn, ?_, hidC⟩
      · rw [List.pairwise_append]
        refine ⟨htn, by simp, ?_⟩
        intro a ha b hb
        simp only [List.mem_singleton] at hb
        subst hb
        exact ⟨fun hn => hexT a ha hn, Nat.ne_of_lt (hidT a ha)⟩
      · intro u hu
        rcases List.mem_append.mp hu with h | h
        · exact Nat.lt_succ_of_lt (hidT u h)
        · simp only [List.mem_singleton] at h
          subst h
          exact Nat.lt_succ_self _

/-- One successful loop iteration on a well-formed store: either the row
was skipped and nothing changed, or the row's team exists (created if
needed), exactly one statistics row carries the row's key with the row's
mapped fields, every other key's rows are untouched, and well-formedness is
preserved. -/
theorem processRow_establishes {F : Type} {season : String} {cid : Nat}
    {ops : FamilyOps F} {s s' : Session F} {row : List String} {w : Nat}
    (hwf : Db.wf s.current)
    (hok : processRow season cid ops s row = .ok (s', w)) :
    Db.wf s'.current ∧
    s'.current.competitions = s.current.competitions ∧
    (∃ ts, s'.current.teams = s.current.teams ++ ts) ∧
    (ops.skipRow row = true → s' = s) ∧
    (ops.skipRow row = false →
      ∃ nm fields t,
        ops.teamNameOfRow row = .ok nm ∧
        ops.mapRow row = .ok fields ∧
        t ∈ s'.current.teams ∧
        t.name = stdOf nm ∧
        s'.current.stats.filter (recordKeyMatch t.id cid season) =
          [⟨t.id, cid, season, fields⟩] ∧
        (∀ tid cid2 sea2, ¬(tid = t.id ∧ sea2 = season ∧ cid2 = cid) →
          s'.current.stats.filter (recordKeyMatch tid cid2 sea2) =
            s.current.stats.filter (recordKeyMatch tid cid2 sea2))) := by
  by_cases hskip : ops.skipRow row = true
  · rw [processRow, if_pos hskip] at hok
    simp only [Except.ok.injEq, Prod.mk.injEq] at hok
    obtain ⟨h1, _⟩ := hok
    subst h1
    exact ⟨hwf, rfl, ⟨[], by simp⟩, fun _ => rfl,
      fun hv => absurd hskip (by simp [hv])⟩
  · have hskipf : ops.skipRow row = false := by simpa using hskip
    rcases hnm : ops.teamNameOfRow row with e | nm
    · simp only [processRow, hskipf, Bool.false_eq_true, if_false, hnm]
        at hok
      cases hok
    · obtain ⟨t, s1, hgoct, htmem, htname, hcomps1, hstats1,
        ⟨ts, hteams1⟩, hwf1⟩ :=
      @goct_wf_step F s nm cid hwf
      have hle := filter_len_le_one (l := s1.current.stats)
        (p := recordKeyMatch t.id cid season) hwf1.2.2.1 stats_pairwise_irr
      rcases hmr : ops.mapRow row with e | fields
      · rcases hfil : s1.current.stats.filter
            (recordKeyMatch t.id cid season) with _ | ⟨r0, rest0⟩
        · simp only [processRow, hskipf, Bool.false_eq_true, if_false, hnm,
            hgoct, scalar_none hfil, hmr] at hok
          cases hok
        · have hrest0 : rest0 = [] := by
            rw [hfil] at hle
            simp only [List.length_cons] at hle
            exact List.eq_nil_of_length_eq_zero (by omega)
          subst hrest0
          simp only [processRow, hskipf, Bool.false_eq_true, if_false, hnm,
            hgoct, scalar_some hfil, hmr] at hok
          cases hok
      · rcases hfil : s1.current.stats.filter
            (recordKeyMatch t.id cid season) with _ | ⟨r0, rest0⟩
        · -- the key is new: the record is staged as an insert
          simp only [processRow, hskipf, Bool.false_eq_true, if_false, hnm,
            hgoct, scalar_none hfil, hmr, Except.ok.injEq,
            Prod.mk.injEq] at hok
          obtain ⟨h1, _⟩ := hok
          subst h1
          obtain ⟨hcn1, htn1, hsn1, hidT1, hidC1⟩ := hwf1
          have hnewmatch := keymatch_self (F := F) t.id cid season fields
          refine ⟨⟨hcn1, htn1, ?_, hidT1, hidC1⟩, hcomps1,
            ⟨ts, hteams1⟩, fun hsk => absurd hsk (by simp [hskipf]), ?_⟩
          · rw [List.pairwise_append]
            refine ⟨hsn1, by simp, ?_⟩
            intro a ha b hb
            simp only [List.mem_singleton] at hb
            subst hb
            have hna : ¬recordKeyMatch t.id cid season a = true := by
              intro hma
              have hmem : a ∈ s1.current.stats.filter
                  (recordKeyMatch t.id cid season) :=
                List.mem_filter.mpr ⟨ha, hma⟩
              rw [hfil] at hmem
              cases hmem
            exact not_keymatch_components hna
          · intro _
            refine ⟨nm, fields, t, rfl, rfl, htmem, htname, ?_, ?_⟩
            · rw [List.filter_append, hfil, List.filter_cons,
                if_pos (by simpa using hnewmatch)]
              rfl
            · intro tid cid2 sea2 hne
              rw [List.filter_append,
                show List.filter (recordKeyMatch tid cid2 sea2)
                  [(⟨t.id, cid, season, fields⟩ : SRecord F)] = [] from by
                  rw [List.filter_cons, if_neg (by
                    simp [keymatch_disjoint hne _ hnewmatch])]
                  rfl,
                List.append_nil, hstats1]
        · -- the key exists: the record is updated in place
          have hrest0 : rest0 = [] := by
            rw [hfil] at hle
            simp only [List.length_cons] at hle
            exact List.eq_nil_of_length_eq_zero (by omega)
          subst hrest0
          simp only [processRow, hskipf, Bool.false_eq_true, if_false, hnm,
            hgoct, scalar_some hfil, hmr, Except.ok.injEq,
            Prod.mk.injEq] at hok
          obtain ⟨h1, _⟩ := hok
          subst h1
          obtain ⟨hcn1, htn1, hsn1, hidT1, hidC1⟩ := hwf1
          have hr0 : r0 ∈ s1.current.stats ∧
              recordKeyMatch t.id cid season r0 = true := by
            have hmem : r0 ∈ s1.current.stats.filter
                (recordKeyMatch t.id cid season) := by
              rw [hfil]
              simp
            exact List.mem_filter.mp hmem
          obtain ⟨hr0a, hr0b, hr0c⟩ := keymatch_components hr0.2
          have hupd : ({ r0 with fields := fields } : SRecord F) =
              ⟨t.id, cid, season, fields⟩ := by
            cases r0
            simp only at hr0a hr0b hr0c
            simp [hr0a, hr0b, hr0c]
          refine ⟨⟨hcn1, htn1, ?_, hidT1, hidC1⟩, hcomps1,
            ⟨ts, hteams1⟩, fun hsk => absurd hsk (by simp [hskipf]), ?_⟩
          · rw [List.pairwise_map]
            refine hsn1.imp ?_
            intro a b hab
            rcases hab with h | h | h
            · exact Or.inl (by
                rw [(updIf_keys a).1, (updIf_keys b).1]
                exact h)
            · exact Or.inr (Or.inl (by
                rw [(updIf_keys a).2.1, (updIf_keys b).2.1]
                exact h))
            · exact Or.inr (Or.inr (by
                rw [(updIf_keys a).2.2, (updIf_keys b).2.2]
                exact h))
          · intro _
            refine ⟨nm, fields, t, rfl, rfl, htmem, htname, ?_, ?_⟩
            · rw [filter_map_upd (fun x => recordKeyMatch_upd x fields),
                hfil, List.map_cons, List.map_nil, hupd]
            · intro tid cid2 sea2 hne
              rw [filter_map_upd_other
                (fun x => recordKeyMatch_upd x fields)
                (keymatch_disjoint hne), hstats1]

/-- Processing a row with a different key preserves another row's
established state. -/
theorem rowEstablished_step {F : Type} {season : String} {cid : Nat}
    {ops : FamilyOps F} {s s' : Session F} {row row0 : List String}
    {w : Nat} (hwf : Db.wf s.current)
    (hok : processRow season cid ops s row = .ok (s', w))
    (hest : RowEstablished season cid ops s.current row0)
    (hne : ops.skipRow row = false →
      rowKeyName ops row ≠ rowKeyName ops row0) :
    RowEstablished season cid ops s'.current row0 := by
  obtain ⟨hwf', hcomps, ⟨ts, hteams⟩, hskipc, hvalidc⟩ :=
    processRow_establishes hwf hok
  by_cases hskip : ops.skipRow row = true
  · rw [hskipc hskip]
    exact hest
  · have hskipf : ops.skipRow row = false := by simpa using hskip
    obtain ⟨nm, fields, t, hnm, hmr, htmem, htname, hfilt, hpres⟩ :=
      hvalidc hskipf
    obtain ⟨nm0, fields0, t0, hnm0, hmr0, ht0, ht0name, hfil0⟩ := hest
    have hstdne : stdOf nm ≠ stdOf nm0 := by
      have hx := hne hskipf
      simp only [rowKeyName, hnm, hnm0, Except.toOption, Option.map] at hx
      intro h
      exact hx (by rw [h])
    have ht0mem' : t0 ∈ s'.current.teams := by
      rw [hteams]
      exact List.mem_append.mpr (Or.inl ht0)
    have htne : t ≠ t0 := fun h => hstdne (by rw [← htname, h, ht0name])
    have hsymm : Symmetric (fun a b : Team => a.name ≠ b.name ∧ a.id ≠ b.id) :=
      fun a b h => ⟨h.1.symm, h.2.symm⟩
    have hidne : t.id ≠ t0.id :=
      ((hwf'.2.1.forall hsymm) htmem ht0mem' htne).2
    refine ⟨nm0, fields0, t0, hnm0, hmr0, ht0mem', ht0name, ?_⟩
    rw [hpres t0.id cid season (fun hc => hidne hc.1.symm)]
    exact hfil0

/-- The loop on a well-formed store: it establishes every valid row it
processes, preserves every already-established foreign key, only appends
teams, and keeps the store well-formed. -/
theorem processRows_establishes {F : Type} {season : String} {cid : Nat}
    {ops : FamilyOps F} :
    ∀ (rows : List (List String)) (s s' : Session F) (w : Nat),
      Db.wf s.current →
      rows.Pairwise (fun r r2 => ops.skipRow r = false →
        ops.skipRow r2 = false → rowKeyName ops r ≠ rowKeyName ops r2) →
      processRows season cid ops s rows = .ok (s', w) →
      Db.wf s'.current ∧
      s'.current.competitions = s.current.competitions ∧
      (∃ ts, s'.current.teams = s.current.teams ++ ts) ∧
      (∀ r ∈ rows, ops.skipRow r = false →
        RowEstablished season cid ops s'.current r) ∧
      (∀ row0, RowEstablished season cid ops s.current row0 →
        (∀ r ∈ rows, ops.skipRow r = false →
          rowKeyName ops r ≠ rowKeyName ops row0) →
        RowEstablished season cid ops s'.current row0) := by
  intro rows
  induction rows with
  | nil =>
    intro s s' w hwf _ h
    simp only [processRows, Except.ok.injEq, Prod.mk.injEq] at h
    obtain ⟨h1, _⟩ := h
    subst h1
    exact ⟨hwf, rfl, ⟨[], by simp⟩, by simp, fun row0 hest _ => hest⟩
  | cons row rest ih =>
    intro s s' w hwf hpwks h
    rw [List.pairwise_cons] at hpwks
    obtain ⟨hhead, htail⟩ := hpwks
    rcases hstep : processRow season cid ops s row with e | ⟨s1, w1⟩
    · simp only [processRows, hstep] at h
      cases h
    · simp only [processRows, hstep] at h
      rcases hrest : processRows season cid ops s1 rest with e2 | ⟨s2, w2⟩
      · rw [hrest] at h
        cases h
      · rw [hrest] at h
        simp only [Except.ok.injEq, Prod.mk.injEq] at h
        obtain ⟨h1, _⟩ := h
        subst h1
        obtain ⟨hwf1, hcomps1, ⟨ts1, hteams1⟩, hskipc, hvalidc⟩ :=
          processRow_establishes hwf hstep
        obtain ⟨hwf2, hcomps2, ⟨ts2, hteams2⟩, hestrest, hpresrest⟩ :=
          ih s1 s2 w2 hwf1 htail hrest
        refine ⟨hwf2, hcomps2.trans hcomps1,
          ⟨ts1 ++ ts2, by rw [hteams2, hteams1, List.append_assoc]⟩,
          ?_, ?_⟩
        · intro r hr hrv
          rcases List.mem_cons.mp hr with rfl | hr'
          · obtain ⟨nm, fields, t, hnm, hmr, htm, htn, hfilt, _⟩ :=
              hvalidc hrv
            apply hpresrest r ⟨nm, fields, t, hnm, hmr, htm, htn, hfilt⟩
            intro r2 hr2 hr2v
            exact (hhead r2 hr2 hrv hr2v).symm
          · exact hestrest r hr' hrv
        · intro row0 hest hdist
          apply hpresrest row0
          · exact rowEstablished_step hwf hstep hest
              (fun hv => hdist row (by simp) hv)
          · intro r hr hrv
            exact hdist r (by simp [hr]) hrv

/-- A valid row whose state is already established is a no-op for the
loop body: the team is found, the record is found, and the in-place update
writes the values it already holds. -/
theorem processRow_stable {F : Type} {season : String} {cid : Nat}
    {ops : FamilyOps F} {s : Session F} {row : List String}
    (hwf : Db.wf s.current)
    (hvalid : ops.skipRow row = false)
    (hest : RowEstablished season cid ops s.current row) :
    processRow season cid ops s row = .ok (s, 0) := by
  obtain ⟨nm, fields, t, hnm, hmr, htm, htn, hfil⟩ := hest
  have htnw : s.current.teams.Pairwise (fun a b => a.name ≠ b.name) :=
    hwf.2.1.imp (fun h => h.1)
  have hgoct := @goct_found F s t nm cid htnw htm htn
  have hsc := scalar_some hfil
  have hmap : s.current.stats.map (fun r =>
      if recordKeyMatch t.id cid season r then
        ({ r with fields := fields } : SRecord F) else r) =
      s.current.stats :=
    map_upd_id hfil rfl
  simp only [processRow, hvalid, Bool.false_eq_true, if_false, hnm, hgoct,
    hsc, hmr, hmap]

theorem processRows_stable {F : Type} {season : String} {cid : Nat}
    {ops : FamilyOps F} :
    ∀ (rows : List (List String)) (s : Session F),
      Db.wf s.current →
      (∀ r ∈ rows, ops.skipRow r = false →
        RowEstablished season cid ops s.current r) →
      ∃ w, processRows season cid ops s rows = .ok (s, w) := by
  intro rows
  induction rows with
  | nil =>
    intro s _ _
    exact ⟨0, rfl⟩
  | cons row rest ih =>
    intro s hwf hest
    obtain ⟨w2, hrest⟩ := ih s hwf (fun r hr => hest r (by simp [hr]))
    by_cases hskip : ops.skipRow row = true
    · refine ⟨(if ops.warnOnSkip then 1 else 0) + w2, ?_⟩
      simp only [processRows, processRow, if_pos hskip, hrest]
    · have hv : ops.skipRow row = false := by simpa using hskip
      refine ⟨0 + w2, ?_⟩
      simp only [processRows,
        processRow_stable hwf hv (hest row (by simp) hv), hrest]

/-- The competition step from a fresh well-formed session: it returns a
competition of the requested name (creating and committing it if absent),
keeps teams and statistics untouched and the session fresh, and a repeat of
the same step on the resulting session is the identity. -/
theorem gocc_idem {F : Type} (comp : String) (s0 : Session F)
    (hfresh : s0.committed = s0.current) (hwf : Db.wf s0.current) :
    ∃ c sC, get_or_create_competition comp s0 = .ok (c, sC) ∧
      c.name = comp ∧ Db.wf sC.current ∧ sC.committed = sC.current ∧
      sC.current.teams = s0.current.teams ∧
      sC.current.stats = s0.current.stats ∧
      c ∈ sC.current.competitions ∧
      get_or_create_competition comp sC = .ok (c, sC) := by
  obtain ⟨hcn, htn, hsn, hidT, hidC⟩ := hwf
  by_cases hex : ∃ c ∈ s0.current.competitions, c.name = comp
  · obtain ⟨c, hc, hcname⟩ := hex
    subst hcname
    exact ⟨c, s0, gocc_found hcn hc, rfl, ⟨hcn, htn, hsn, hidT, hidC⟩,
      hfresh, rfl, rfl, hc, gocc_found hcn hc⟩
  · push_neg at hex
    have hpwC : (s0.current.competitions ++
        [(⟨s0.current.nextCompId, comp⟩ : Competition)]).Pairwise
        (fun a b => a.name ≠ b.name) := by
      rw [List.pairwise_append]
      refine ⟨hcn, by simp, ?_⟩
      intro a ha b hb
      simp only [List.mem_singleton] at hb
      subst hb
      exact fun hn => hex a ha hn
    have hwfC : Db.wf { s0.current with
        competitions := s0.current.competitions ++
          [⟨s0.current.nextCompId, comp⟩],
        nextCompId := s0.current.nextCompId + 1 } := by
      refine ⟨hpwC, htn, hsn, hidT, ?_⟩
      intro c2 hc2
      rcases List.mem_append.mp hc2 with hI | hI
      · exact Nat.lt_succ_of_lt (hidC c2 hI)
      · simp only [List.mem_singleton] at hI
        subst hI
        exact Nat.lt_succ_self _
    refine ⟨⟨s0.current.nextCompId, comp⟩, _, gocc_create hex, rfl, hwfC,
      rfl, rfl, rfl, by simp, ?_⟩
    exact gocc_found (c := ⟨s0.current.nextCompId, comp⟩) hpwC (by simp)

/-- Core idempotence of `OverallResultsTableScraper.save_to_db`. -/
theorem overall_save_idem_core :
    ∀ (season comp : String) (tables_data : TablesData)
      (s0 s1 : Session OverallFields) (w : Nat),
      s0.committed = s0.current →
      Db.wf s0.current →
      (∀ tbl, find_overall_table tables_data = some tbl →
        (tbl.drop 1).Pairwise (fun r r2 =>
          overallOps.skipRow r = false → overallOps.skipRow r2 = false →
          rowKeyName overallOps r ≠ rowKeyName overallOps r2)) →
      overall_save_to_db season comp tables_data s0 = (.ok (), s1, w) →
      Db.wf s1.current ∧ s1.committed = s1.current ∧
      (∀ tid cid2 sea, countKey tid cid2 sea s1.current.stats ≤ 1) ∧
      (∀ tbl, find_overall_table tables_data = some tbl →
        ∀ r ∈ tbl.drop 1, overallOps.skipRow r = false →
          ∃ c ∈ s1.current.competitions, c.name = comp ∧
            RowEstablished season c.id overallOps s1.current r) ∧
      (∃ w2, overall_save_to_db season comp tables_data s1 =
        (.ok (), s1, w2)) := by
  intro season comp tables_data s0 s1 w hfresh hwf hdist hok
  obtain ⟨c, sC, hg1, hcname, hwfC, hfreshC, hteamsC, hstatsC, hcmem,
    hg2⟩ := gocc_idem comp s0 hfresh hwf
  subst hcname
  rcases hft : find_overall_table tables_data with _ | tbl
  · have hres : overall_save_to_db season c.name tables_data s0 =
        (.ok (), sC, 1) := by
      rw [overall_save_to_db, hg1, hft]
    rw [hres] at hok
    simp only [Prod.mk.injEq] at hok
    obtain ⟨_, h1, _⟩ := hok
    subst h1
    exact ⟨hwfC, hfreshC,
      fun tid cid2 sea => wf_countKey_le_one hwfC tid cid2 sea,
      fun tbl htbl => Option.noConfusion htbl,
      ⟨1, by rw [overall_save_to_db, hg2, hft]⟩⟩
  · by_cases hemp : tbl.isEmpty = true
    · have hres : overall_save_to_db season c.name tables_data s0 =
          (.ok (), sC, 0) := by
        simp only [overall_save_to_db, hg1, hft, hemp, if_true]
      rw [hres] at hok
      simp only [Prod.mk.injEq] at hok
      obtain ⟨_, h1, _⟩ := hok
      subst h1
      have htbl0 : tbl = [] := by
        cases tbl with
        | nil => rfl
        | cons x xs => simp [List.isEmpty] at hemp
      refine ⟨hwfC, hfreshC,
        fun tid cid2 sea => wf_countKey_le_one hwfC tid cid2 sea, ?_,
        ⟨0, by simp only [overall_save_to_db, hg2, hft, hemp, if_true]⟩⟩
      intro tbl2 htbl2 r hr _
      cases htbl2
      rw [htbl0] at hr
      cases hr
    · rcases hloop : processRows season c.id overallOps sC (tbl.drop 1)
        with ⟨ee, eserr⟩ | ⟨s2, w2'⟩
      · have hres : overall_save_to_db season c.name tables_data s0 =
            (.error ee, rollbackS eserr, 0) := by
          simp only [overall_save_to_db, hg1, hft, hemp, Bool.false_eq_true,
            if_false, hloop]
        rw [hres] at hok
        simp at hok
      · have hres : overall_save_to_db season c.name tables_data s0 =
            (.ok (), commitS s2, w2') := by
          simp only [overall_save_to_db, hg1, hft, hemp, Bool.false_eq_true,
            if_false, hloop]
        rw [hres] at hok
        simp only [Prod.mk.injEq] at hok
        obtain ⟨_, h1, _⟩ := hok
        subst h1
        obtain ⟨hwf2, hcomps2, ⟨ts, hteams2⟩, hestab, _⟩ :=
          processRows_establishes (tbl.drop 1) sC s2 w2' hwfC
            (hdist tbl hft) hloop
        have hcmem2 : c ∈ s2.current.competitions := by
          rw [hcomps2]
          exact hcmem
        have hg3 : get_or_create_competition c.name (commitS s2) =
            .ok (c, commitS s2) :=
          gocc_found hwf2.1 hcmem2
        obtain ⟨w3, hloop2⟩ := processRows_stable (tbl.drop 1)
          (commitS s2) hwf2 (fun r hr hrv => hestab r hr hrv)
        refine ⟨hwf2, rfl,
          fun tid cid2 sea => wf_countKey_le_one hwf2 tid cid2 sea,
          ?_, ⟨w3, ?_⟩⟩
        · intro tbl2 htbl2 r hr hrv
          cases htbl2
          exact ⟨c, hcmem2, rfl, hestab r hr hrv⟩
        · simp only [overall_save_to_db, hg3, hft, hemp, Bool.false_eq_true,
            if_false, hloop2]
          rfl

/-- Core idempotence of `SquadKeeperAgainstScraper.save_to_db`. -/
theorem keeper_save_idem_core :
    ∀ (season comp : String) (tables_data : TablesData)
      (s0 s1 : Session KeeperFields) (w : Nat),
      s0.committed = s0.current →
      Db.wf s0.current →
      (∀ tbl, find_squad_keeper_table tables_data = some tbl →
        (tbl.drop 2).Pairwise (fun r r2 =>
          (keeperOps (tbl.getD 1 [])).skipRow r = false →
          (keeperOps (tbl.getD 1 [])).skipRow r2 = false →
          rowKeyName (keeperOps (tbl.getD 1 [])) r ≠
            rowKeyName (keeperOps (tbl.getD 1 [])) r2)) →
      keeper_save_to_db season comp tables_data s0 = (.ok (), s1, w) →
      Db.wf s1.current ∧ s1.committed = s1.current ∧
      (∀ tid cid2 sea, countKey tid cid2 sea s1.current.stats ≤ 1) ∧
      (∀ tbl, find_squad_keeper_table tables_data = some tbl →
        ∀ r ∈ tbl.drop 2, (keeperOps (tbl.getD 1 [])).skipRow r = false →
          ∃ c ∈ s1.current.competitions, c.name = comp ∧
            RowEstablished season c.id (keeperOps (tbl.getD 1 []))
              s1.current r) ∧
      (∃ w2, keeper_save_to_db season comp tables_data s1 =
        (.ok (), s1, w2)) := by
  intro season comp tables_data s0 s1 w hfresh hwf hdist hok
  obtain ⟨c, sC, hg1, hcname, hwfC, hfreshC, hteamsC, hstatsC, hcmem,
    hg2⟩ := gocc_idem comp s0 hfresh hwf
  subst hcname
  rcases hft : find_squad_keeper_table tables_data with _ | tbl
  · have hres : keeper_save_to_db season c.name tables_data s0 =
        (.ok (), sC, 1) := by
      rw [keeper_save_to_db, hg1, hft]
    rw [hres] at hok
    simp only [Prod.mk.injEq] at hok
    obtain ⟨_, h1, _⟩ := hok
    subst h1
    exact ⟨hwfC, hfreshC,
      fun tid cid2 sea => wf_countKey_le_one hwfC tid cid2 sea,
      fun tbl htbl => Option.noConfusion htbl,
      ⟨1, by rw [keeper_save_to_db, hg2, hft]⟩⟩
  · by_cases hlen : tbl.length < 2
    · have hres : keeper_save_to_db season c.name tables_data s0 =
          (.ok (), sC, 0) := by
        simp only [keeper_save_to_db, hg1, hft, if_pos hlen]
      rw [hres] at hok
      simp only [Prod.mk.injEq] at hok
      obtain ⟨_, h1, _⟩ := hok
      subst h1
      refine ⟨hwfC, hfreshC,
        fun tid cid2 sea => wf_countKey_le_one hwfC tid cid2 sea, ?_,
        ⟨0, by simp only [keeper_save_to_db, hg2, hft, if_pos hlen]⟩⟩
      intro tbl2 htbl2 r hr _
      cases htbl2
      have : tbl.drop 2 = [] := by
        apply List.drop_eq_nil_of_le
        omega
      rw [this] at hr
      cases hr
    · rcases hloop : processRows season c.id (keeperOps (tbl.getD 1 []))
          sC (tbl.drop 2) with ⟨ee, eserr⟩ | ⟨s2, w2'⟩
      · have hres : keeper_save_to_db season c.name tables_data s0 =
            (.error ee, rollbackS eserr, 0) := by
          simp only [keeper_save_to_db, hg1, hft, if_neg hlen, hloop]
        rw [hres] at hok
        simp at hok
      · have hres : keeper_save_to_db season c.name tables_data s0 =
            (.ok (), commitS s2, w2') := by
          simp only [keeper_save_to_db, hg1, hft, if_neg hlen, hloop]
        rw [hres] at hok
        simp only [Prod.mk.injEq] at hok
        obtain ⟨_, h1, _⟩ := hok
        subst h1
        obtain ⟨hwf2, hcomps2, ⟨ts, hteams2⟩, hestab, _⟩ :=
          processRows_establishes (tbl.drop 2) sC s2 w2' hwfC
            (hdist tbl hft) hloop
        have hcmem2 : c ∈ s2.current.competitions := by
          rw [hcomps2]
          exact hcmem
        have hg3 : get_or_create_competition c.name (commitS s2) =
            .ok (c, commitS s2) :=
          gocc_found hwf2.1 hcmem2
        obtain ⟨w3, hloop2⟩ := processRows_stable (tbl.drop 2)
          (commitS s2) hwf2 (fun r hr hrv => hestab r hr hrv)
        refine ⟨hwf2, rfl,
          fun tid cid2 sea => wf_countKey_le_one hwf2 tid cid2 sea,
          ?_, ⟨w3, ?_⟩⟩
        · intro tbl2 htbl2 r hr hrv
          cases htbl2
          exact ⟨c, hcmem2, rfl, hestab r hr hrv⟩
        · simp only [keeper_save_to_db, hg3, hft, if_neg hlen, hloop2]
          rfl

/-- Claim C1.  For both modelled table families (overall results and squad
keeper against): from a fresh well-formed store, a successful save run
leaves a store with at most one statistics record per (team, season,
competition) key, exactly one record (with the row's mapped fields) for
each valid data row's key — created when absent, updated in place when
present — and the run is idempotent: re-running it on identical input
succeeds, changes nothing (it finds each existing record by its key and
rewrites the same field values), and hence any N ≥ 1 runs end in the same
store as one run.  Rows are assumed to carry pairwise distinct standardized
team names, as league tables do. -/
theorem save_to_db_upsert_idempotent :
    (∀ (season comp : String) (tables_data : TablesData)
      (s0 s1 : Session OverallFields) (w : Nat),
      s0.committed = s0.current →
      Db.wf s0.current →
      (∀ tbl, find_overall_table tables_data = some tbl →
        (tbl.drop 1).Pairwise (fun r r2 =>
          overallOps.skipRow r = false → overallOps.skipRow r2 = false →
          rowKeyName overallOps r ≠ rowKeyName overallOps r2)) →
      overall_save_to_db season comp tables_data s0 = (.ok (), s1, w) →
      Db.wf s1.current ∧ s1.committed = s1.current ∧
      (∀ tid cid2 sea, countKey tid cid2 sea s1.current.stats ≤ 1) ∧
      (∀ tbl, find_overall_table tables_data = some tbl →
        ∀ r ∈ tbl.drop 1, overallOps.skipRow r = false →
          ∃ c ∈ s1.current.competitions, c.name = comp ∧
            RowEstablished season c.id overallOps s1.current r) ∧
      (∃ w2, overall_save_to_db season comp tables_data s1 =
        (.ok (), s1, w2)) ∧
      (∀ n : Nat,
        (fun s => (overall_save_to_db season comp tables_data s).2.1)^[n]
          s1 = s1)) ∧
    (∀ (season comp : String) (tables_data : TablesData)
      (s0 s1 : Session KeeperFields) (w : Nat),
      s0.committed = s0.current →
      Db.wf s0.current →
      (∀ tbl, find_squad_keeper_table tables_data = some tbl →
        (tbl.drop 2).Pairwise (fun r r2 =>
          (keeperOps (tbl.getD 1 [])).skipRow r = false →
          (keeperOps (tbl.getD 1 [])).skipRow r2 = false →
          rowKeyName (keeperOps (tbl.getD 1 [])) r ≠
            rowKeyName (keeperOps (tbl.getD 1 [])) r2)) →
      keeper_save_to_db season comp tables_data s0 = (.ok (), s1, w) →
      Db.wf s1.current ∧ s1.committed = s1.current ∧
      (∀ tid cid2 sea, countKey tid cid2 sea s1.current.stats ≤ 1) ∧
      (∀ tbl, find_squad_keeper_table tables_data = some tbl →
        ∀ r ∈ tbl.drop 2,
          (keeperOps (tbl.getD 1 [])).skipRow r = false →
          ∃ c ∈ s1.current.competitions, c.name = comp ∧
            RowEstablished season c.id (keeperOps (tbl.getD 1 []))
              s1.current r) ∧
      (∃ w2, keeper_save_to_db season comp tables_data s1 =
        (.ok (), s1, w2)) ∧
      (∀ n : Nat,
        (fun s => (keeper_save_to_db season comp tables_data s).2.1)^[n]
          s1 = s1)) := by
  constructor
  · intro season comp tables_data s0 s1 w hfresh hwf hdist hok
    obtain ⟨h1, h2, h3, h4, w2, h5⟩ :=
      overall_save_idem_core season comp tables_data s0 s1 w hfresh hwf
        hdist hok
    exact ⟨h1, h2, h3, h4, ⟨w2, h5⟩,
      fun n => Function.iterate_fixed (by rw [h5]) n⟩
  · intro season comp tables_data s0 s1 w hfresh hwf hdist hok
    obtain ⟨h1, h2, h3, h4, w2, h5⟩ :=
      keeper_save_idem_core season comp tables_data s0 s1 w hfresh hwf
        hdist hok
    exact ⟨h1, h2, h3, h4, ⟨w2, h5⟩,
      fun n => Function.iterate_fixed (by rw [h5]) n⟩

def tdIdem : TablesData :=
  [("overall results", [overallHdr15, overallRowA])]

def sIdem1 : Session OverallFields :=
  (overall_save_to_db "2024-25" "Premier League" tdIdem
    ⟨emptyODb, emptyODb⟩).2.1

def emptyKDb : Db KeeperFields :=
  ⟨[], [], [], 1, 1⟩

def keeperRowOK : List String :=
  ["vs Arsenal", "26", "27.1", "7", "2", "180", "2.0", "1", "0.50", "9",
   "6", "85.7", "1", "1", "0", "1", "50.0", "0", "0", "0", "0"]

def tdKIdem : TablesData :=
  [("stats_squads_keeper_against", [["Header"], keeperHdr, keeperRowOK])]

def sKIdem1 : Session KeeperFields :=
  (keeper_save_to_db "2024-25" "Premier League" tdKIdem
    ⟨emptyKDb, emptyKDb⟩).2.1

/-- C1 witness: a one-row overall-results table and a one-row keeper table
from the empty store; three further runs are the identity on the resulting
session, and any key holds at most one record. -/
theorem save_to_db_upsert_idempotent_witness :
    countKey 1 1 "2024-25" sIdem1.current.stats ≤ 1 ∧
    (fun s => (overall_save_to_db "2024-25" "Premier League" tdIdem
      s).2.1)^[3] sIdem1 = sIdem1 ∧
    (fun s => (keeper_save_to_db "2024-25" "Premier League" tdKIdem
      s).2.1)^[3] sKIdem1 = sKIdem1 := by
  have hov := save_to_db_upsert_idempotent.1 "2024-25" "Premier League"
    tdIdem ⟨emptyODb, emptyODb⟩ sIdem1 0 rfl
    ⟨List.Pairwise.nil, List.Pairwise.nil, List.Pairwise.nil,
      by simp [emptyODb], by simp [emptyODb]⟩
    (fun tbl htbl => by
      rw [show find_overall_table tdIdem =
        some [overallHdr15, overallRowA] from by decide] at htbl
      cases htbl
      simp)
    (by decide)
  have hkp := save_to_db_upsert_idempotent.2 "2024-25" "Premier League"
    tdKIdem ⟨emptyKDb, emptyKDb⟩ sKIdem1 0 rfl
    ⟨List.Pairwise.nil, List.Pairwise.nil, List.Pairwise.nil,
      by simp [emptyKDb], by simp [emptyKDb]⟩
    (fun tbl htbl => by
      rw [show find_squad_keeper_table tdKIdem =
        some [["Header"], keeperHdr, keeperRowOK] from by decide] at htbl
      cases htbl
      simp)
    (by decide)
  exact ⟨hov.2.2.1 1 1 "2024-25", hov.2.2.2.2.2 3, hkp.2.2.2.2.2 3⟩

end Statlines
